import Mathlib

/-!
# Shallow embedding of the `timestone_recorder` event pipeline

Verification development for `src/tools/timestone_recorder/src/main.rs`.

Modelling conventions:
* Rust `String` / `&str` values become `List Char`; the byte length used by
  `String::len` is the sum of the characters' UTF-8 sizes.
* Machine integers (`i64` millisecond timestamps, `i32` deltas) become `Int`;
  the source performs no wrapping arithmetic on them and stays far from the
  overflow boundary, so plain integers are faithful.
* OS facilities (UI Automation queries, clipboard formats, key translation,
  the monotonic clock) are modelled as explicit inputs of the functions that
  consult them.
* String constants of the source (event types, flush reasons, table names)
  become inductive tags.
-/

namespace Framer

/-- ASCII lowercasing of one character, as Rust `char::to_ascii_lowercase`. -/
def asciiLower (c : Char) : Char :=
  if 'A' ≤ c ∧ c ≤ 'Z' then Char.ofNat (c.toNat + 32) else c

/-- Rust `str::to_ascii_lowercase` over the modelled string. -/
def toAsciiLowercase (s : List Char) : List Char := s.map asciiLower

/-- Windows path separators recognised by `Path` components. -/
def isPathSep (c : Char) : Bool := c = '\\' || c = '/'

/-- `Path::new(s).file_name()` for ordinary process-image paths: the component
after the final path separator.  (The source falls back to the whole string
when `file_name` returns `None`; for separator-free names the two agree.) -/
def fileName (s : List Char) : List Char :=
  (s.reverse.takeWhile (fun c => !isPathSep c)).reverse

/-- `normalize_process_name` (main.rs:2199): executable base name,
ASCII-lowercased. -/
def normalize_process_name (s : List Char) : List Char :=
  toAsciiLowercase (fileName s)

/-- The fields of `RecorderState` consulted by the Privacy Gate
(main.rs:164, fields `safe_text_only`, `allowlist_processes`,
`blocklist_processes`).  The two lists are already normalised by
`normalize_process_list` at config load. -/
structure GateState where
  safe_text_only : Bool
  allowlist_processes : List (List Char)
  blocklist_processes : List (List Char)

/-- `process_is_allowed` (main.rs:2177). -/
def process_is_allowed (st : GateState) (process_name : Option (List Char)) : Bool :=
  if st.allowlist_processes.isEmpty then true
  else
    match process_name with
    | none => false
    | some name => st.allowlist_processes.contains (normalize_process_name name)

/-- `process_is_blocked` (main.rs:2188). -/
def process_is_blocked (st : GateState) (process_name : Option (List Char)) : Bool :=
  if st.blocklist_processes.isEmpty then false
  else
    match process_name with
    | none => false
    | some name => st.blocklist_processes.contains (normalize_process_name name)

/-- Outcome of the UI Automation focused-element queries performed by
`should_capture_text` (main.rs:2112-2136); `none` models an unavailable
automation service or a failing `GetFocusedElement` call. -/
structure UiaFocus where
  hasKeyboardFocus : Bool
  isPassword : Bool
  controlType : Nat

/-- `UIA_EditControlTypeId`. -/
def UIA_EditControlTypeId : Nat := 50004

/-- `UIA_DocumentControlTypeId`. -/
def UIA_DocumentControlTypeId : Nat := 50030

/-- `should_capture_text` (main.rs:2101), with the UI Automation state passed
explicitly. -/
def should_capture_text (st : GateState) (process_name : Option (List Char))
    (uia : Option UiaFocus) : Bool :=
  if process_is_blocked st process_name then false
  else if !process_is_allowed st process_name then false
  else if !st.safe_text_only then true
  else
    match uia with
    | none => false
    | some el =>
      if !el.hasKeyboardFocus then false
      else if el.isPassword then false
      else if el.controlType != UIA_EditControlTypeId &&
          el.controlType != UIA_DocumentControlTypeId then false
      else true

/-- The accessibility conditions demanded by `should_capture_text` once the
list checks have passed and safe-text-only mode is on: a focused element
exists, has keyboard focus, is not a password field, and is an edit or
document control. -/
def uiaTextChecksPass (uia : Option UiaFocus) : Bool :=
  match uia with
  | none => false
  | some el =>
      el.hasKeyboardFocus && !el.isPassword &&
        (el.controlType == UIA_EditControlTypeId ||
          el.controlType == UIA_DocumentControlTypeId)

/-- `should_capture_clipboard` (main.rs:1230). -/
def should_capture_clipboard (st : GateState) (process_name : Option (List Char)) : Bool :=
  if process_is_blocked st process_name then false
  else if !process_is_allowed st process_name then false
  else true

/-- `TruncateResult` (main.rs:1517). -/
structure TruncateResult where
  text : List Char
  length : Nat
  truncated : Bool
deriving DecidableEq, Repr

/-- `truncate_text` (main.rs:1523): `length` counts characters
(`text.chars().count()`). -/
def truncate_text (text : List Char) (max_len : Nat) : TruncateResult :=
  let length := text.length
  if length ≤ max_len then
    { text := text, length := length, truncated := false }
  else
    { text := text.take max_len, length := length, truncated := true }

/-! ### Clipboard capture (`read_clipboard_event_locked`, main.rs:1260) -/

/-- Successfully decoded clipboard image content: the raw DIB bytes (these
are what `hash_bytes` is applied to) and the decoded dimensions. -/
structure ClipImage where
  bytes : List Nat
  width : Int
  height : Int
deriving DecidableEq

/-- The formats available on the clipboard at a settled change, in the
priority order `read_clipboard_event_locked` checks them: `image` is a
present-and-decodable DIB (`read_clipboard_image` returning `Some`),
`files` a non-empty `CF_HDROP` list, `text` a non-empty `CF_UNICODETEXT`
payload. -/
structure ClipboardContent where
  image : Option ClipImage
  files : Option (List (List Char))
  text : Option (List Char)

/-- `hash_bytes` (main.rs:1423).  `DefaultHasher` is an unspecified
deterministic 64-bit hash; modelled as a concrete polynomial fold — the
pipeline depends only on its determinism. -/
def hash_bytes (bytes : List Nat) : Nat :=
  bytes.foldl (fun h b => (h * 1099511628211 + b) % 2 ^ 64) 14695981039346656037

/-- `ClipboardHash` (main.rs:233): hash and monotonic timestamp of the most
recent clipboard emission that recorded one. -/
structure ClipboardHash where
  hash : Nat
  ts_ms : Int
deriving DecidableEq

/-- `should_skip_clipboard_hash` (main.rs:1408), returning the decision and
the updated `last_clipboard_hash` (the source early-returns `true` without
updating the stored hash). -/
def should_skip_clipboard_hash (dedupe_window_ms : Int)
    (last : Option ClipboardHash) (hash : Nat) (now_ms : Int) :
    Bool × Option ClipboardHash :=
  match last with
  | some lastHash =>
      if lastHash.hash = hash ∧ now_ms - lastHash.ts_ms ≤ dedupe_window_ms then
        (true, some lastHash)
      else (false, some { hash := hash, ts_ms := now_ms })
  | none => (false, some { hash := hash, ts_ms := now_ms })

/-- The payload-relevant part of an emitted clipboard `EventRecord`
(`build_clipboard_event` stamps it with `now_mono_ms`). -/
inductive ClipEvent
  | image (width height : Int) (ts_mono_ms : Int)
  | files (paths : List (List Char)) (ts_mono_ms : Int)
  | text (t : TruncateResult) (ts_mono_ms : Int)
deriving DecidableEq

/-- `read_clipboard_event_locked` (main.rs:1260) together with its effect on
`last_clipboard_hash`; `now_ms` is the monotonic clock at the call.  The
hash dedupe is consulted only on the image path, exactly as in the source. -/
def read_clipboard_event_locked (max_text_len : Nat) (dedupe_window_ms : Int)
    (last : Option ClipboardHash) (clip : ClipboardContent) (now_ms : Int) :
    Option ClipEvent × Option ClipboardHash :=
  match clip.image with
  | some img =>
      match should_skip_clipboard_hash dedupe_window_ms last
          (hash_bytes img.bytes) now_ms with
      | (true, last') => (none, last')
      | (false, last') => (some (.image img.width img.height now_ms), last')
  | none =>
    match clip.files with
    | some fs => (some (.files fs now_ms), last)
    | none =>
      match clip.text with
      | some t => (some (.text (truncate_text t max_text_len) now_ms), last)
      | none => (none, last)

/-! ### Text composition (`handle_text_key`, main.rs:2364) -/

/-- `TextBuffer` (main.rs:159). -/
structure TextBuffer where
  text : List Char
  last_ts_ms : Int
deriving DecidableEq

/-- UTF-8 byte length of the modelled string, as Rust `String::len`. -/
def utf8Len (s : List Char) : Nat := (s.map Char.utf8Size).sum

/-- The flush reasons the text path uses. -/
inductive FlushReason
  | timeout
  | enter
  | tab
  | max_len
  | idle_timeout
deriving DecidableEq, Repr

/-- The text-relevant part of an emitted `text_input` `EventRecord`
(`send_text_event`, main.rs:2469). -/
structure TextEvent where
  text : List Char
  reason : FlushReason
deriving DecidableEq, Repr

/-- A keystroke reaching `handle_text_key`: the virtual-key code together
with the outcome of `translate_vk_to_text` for it (`none` models a failing
or empty `ToUnicodeEx` translation; the keyboard layout is an input of the
model). -/
structure TextKey where
  vk : Nat
  translated : Option (List Char)
deriving DecidableEq

/-- `VK_BACK`. -/
def VK_BACK : Nat := 8

/-- `VK_TAB`. -/
def VK_TAB : Nat := 9

/-- `VK_RETURN`. -/
def VK_RETURN : Nat := 13

/-- `flush_text_buffer_with_window` (main.rs:2448) restricted to its effect
on the buffer and the emitted event: an empty buffer emits nothing;
otherwise the buffer is taken, its timestamp refreshed, and one
`text_input` event carrying the text is sent.  (The optional UIA
`final_text` enrichment only adds payload fields and is not modelled.) -/
def flush_text_buffer_with_window (buf : TextBuffer) (now_ms : Int)
    (reason : FlushReason) : TextBuffer × List TextEvent :=
  if buf.text = [] then (buf, [])
  else ({ text := [], last_ts_ms := now_ms }, [{ text := buf.text, reason := reason }])

/-- `flush_text_buffer_if_stale` (main.rs:2417), as invoked every 200 ms by
the stop watcher with reason `idle_timeout`. -/
def flush_text_buffer_if_stale (text_flush_ms : Int) (buf : TextBuffer)
    (now_ms : Int) : TextBuffer × List TextEvent :=
  if buf.text ≠ [] ∧ text_flush_ms ≤ now_ms - buf.last_ts_ms then
    flush_text_buffer_with_window buf now_ms .idle_timeout
  else (buf, [])

/-- `handle_text_key` (main.rs:2364); `now_ms` is `now_mono_ms` at entry.
It first applies the stale check (`flush_text_buffer_if_stale_with_window`,
reason `timeout`), then dispatches on Backspace / Enter / Tab / translated
text, flushing with reason `max_len` when the byte length reaches
`max_text_len`. -/
def handle_text_key (max_text_len : Nat) (text_flush_ms : Int)
    (buf : TextBuffer) (now_ms : Int) (k : TextKey) :
    TextBuffer × List TextEvent :=
  let staleStep :=
    if buf.text ≠ [] ∧ text_flush_ms ≤ now_ms - buf.last_ts_ms then
      flush_text_buffer_with_window buf now_ms .timeout
    else (buf, [])
  let buf1 := staleStep.1
  let evStale := staleStep.2
  if k.vk = VK_BACK then
    if buf1.text = [] then (buf1, evStale)
    else ({ text := buf1.text.dropLast, last_ts_ms := now_ms }, evStale)
  else if k.vk = VK_RETURN then
    let fl := flush_text_buffer_with_window buf1 now_ms .enter
    (fl.1, evStale ++ fl.2)
  else if k.vk = VK_TAB then
    let fl := flush_text_buffer_with_window buf1 now_ms .tab
    (fl.1, evStale ++ fl.2)
  else
    match k.translated with
    | none => (buf1, evStale)
    | some [] => (buf1, evStale)
    | some text =>
      let buf2 : TextBuffer := { text := buf1.text ++ text, last_ts_ms := now_ms }
      if max_text_len ≤ utf8Len buf2.text then
        let fl := flush_text_buffer_with_window buf2 now_ms .max_len
        (fl.1, evStale ++ fl.2)
      else (buf2, evStale)

/-- Process a sequence of timestamped keystrokes through `handle_text_key`,
collecting the emitted text events in order. -/
def runTextKeys (max_text_len : Nat) (text_flush_ms : Int)
    (buf : TextBuffer) : List (Int × TextKey) → TextBuffer × List TextEvent
  | [] => (buf, [])
  | (now, k) :: rest =>
      let step := handle_text_key max_text_len text_flush_ms buf now k
      let restRun := runTextKeys max_text_len text_flush_ms step.1 rest
      (restRun.1, step.2 ++ restRun.2)

/-- The spec's view of one keystroke: translated characters are appended in
order, Backspace removes the most recently appended character. -/
def textKeyStep (acc : List Char) (k : TextKey) : List Char :=
  if k.vk = VK_BACK then acc.dropLast
  else
    match k.translated with
    | some text => acc ++ text
    | none => acc

/-- The composed text of a keystroke sequence, per the spec. -/
def composeKeys (keys : List TextKey) : List Char :=
  keys.foldl textKeyStep []

/-- A keystroke within the scope of the composition claim: not Enter, not
Tab, and either a Backspace or translating to at least one character. -/
def goodTextKey (k : TextKey) : Prop :=
  k.vk ≠ VK_RETURN ∧ k.vk ≠ VK_TAB ∧
    (k.vk = VK_BACK ∨ k.translated.getD [] ≠ [])

instance (k : TextKey) : Decidable (goodTextKey k) := by
  unfold goodTextKey
  infer_instance

/-! ### Scroll aggregation (`buffer_mouse_scroll`, main.rs:1724) -/

/-- `ScrollBuffer` (main.rs:238). -/
structure ScrollBuffer where
  last_ts_ms : Int
  x : Int
  y : Int
  total_delta : Int
  ticks : Int
deriving DecidableEq, Repr

/-- The scroll-relevant part of an emitted `mouse_scroll` `EventRecord`:
`flush_scroll_buffer` stamps it with the aggregate's last tick time and
carries the accumulated totals. -/
structure ScrollEvent where
  ts_mono_ms : Int
  x : Int
  y : Int
  total_delta : Int
  ticks : Int
deriving DecidableEq, Repr

/-- `flush_scroll_buffer` (main.rs:1747): takes the aggregate and emits one
`mouse_scroll` event for it. -/
def flush_scroll_buffer (buf : Option ScrollBuffer) :
    Option ScrollBuffer × List ScrollEvent :=
  match buf with
  | none => (none, [])
  | some existing =>
      (none,
        [{ ts_mono_ms := existing.last_ts_ms, x := existing.x, y := existing.y,
           total_delta := existing.total_delta, ticks := existing.ticks }])

/-- `buffer_mouse_scroll` (main.rs:1724): a tick within 200 ms of the
aggregate's last tick joins it; otherwise the aggregate is flushed and a
fresh one starts with this tick. -/
def buffer_mouse_scroll (buf : Option ScrollBuffer) (mono_ms : Int)
    (x y delta : Int) : Option ScrollBuffer × List ScrollEvent :=
  match buf with
  | some existing =>
      if mono_ms - existing.last_ts_ms ≤ 200 then
        (some { last_ts_ms := mono_ms, x := x, y := y,
                total_delta := existing.total_delta + delta,
                ticks := existing.ticks + 1 }, [])
      else
        ((some { last_ts_ms := mono_ms, x := x, y := y,
                 total_delta := delta, ticks := 1 }),
          (flush_scroll_buffer (some existing)).2)
  | none =>
      (some { last_ts_ms := mono_ms, x := x, y := y,
              total_delta := delta, ticks := 1 }, [])

/-- One iteration of the background flusher thread (`spawn_scroll_flush`,
main.rs:607): flushes the aggregate once it has been quiet for more than
200 ms. -/
def scrollFlushStep (buf : Option ScrollBuffer) (now_ms : Int) :
    Option ScrollBuffer × List ScrollEvent :=
  match buf with
  | some existing =>
      if 200 < now_ms - existing.last_ts_ms then flush_scroll_buffer (some existing)
      else (some existing, [])
  | none => (none, [])

/-- Feed a sequence of timestamped wheel ticks `(ts, x, y, delta)` to
`buffer_mouse_scroll`, collecting emitted events in order. -/
def runScrollTicks (buf : Option ScrollBuffer) :
    List (Int × Int × Int × Int) → Option ScrollBuffer × List ScrollEvent
  | [] => (buf, [])
  | (ts, x, y, d) :: rest =>
      let step := buffer_mouse_scroll buf ts x y d
      let restRun := runScrollTicks step.1 rest
      (restRun.1, step.2 ++ restRun.2)

/-- The aggregate resulting from joining a tick sequence onto a buffer. -/
def scrollFold (b : ScrollBuffer) (ticks : List (Int × Int × Int × Int)) :
    ScrollBuffer :=
  ticks.foldl
    (fun acc p =>
      { last_ts_ms := p.1, x := p.2.1, y := p.2.2.1,
        total_delta := acc.total_delta + p.2.2.2, ticks := acc.ticks + 1 }) b

/-! ### Window-rectangle debounce (`update_window_events`, main.rs:1617) -/

/-- `RectInfo` (main.rs:210). -/
structure RectInfo where
  left : Int
  top : Int
  right : Int
  bottom : Int
  width : Int
  height : Int
deriving DecidableEq, Repr

/-- The part of `WindowInfo` (main.rs:1177) the rectangle debouncer reads
and the rectangle event carries: the window rectangle (`none` when
`GetWindowRect` fails).  The remaining denormalized fields (title, class,
process name) ride along unchanged and are not modelled. -/
structure WindowInfo where
  rect : Option RectInfo
deriving DecidableEq, Repr

/-- `PendingRect` (main.rs:1190). -/
structure PendingRect where
  hwnd : Int
  window_info : WindowInfo
  last_change_ms : Int
deriving DecidableEq, Repr

/-- `WindowTracker` (main.rs:1184); `last_hwnd` starts as `HWND(0)`. -/
structure WindowTracker where
  last_hwnd : Int
  last_rect : Option RectInfo
  pending_rect : Option PendingRect
deriving DecidableEq, Repr

/-- The window events of the foreground/geometry path. -/
inductive WindowEvent
  | active_window_changed (hwnd : Int) (info : WindowInfo) (ts_mono_ms : Int)
  | window_rect_changed (info : WindowInfo) (ts_mono_ms : Int)
deriving DecidableEq, Repr

/-- `update_window_events` (main.rs:1617) for an unpaused recorder.  (The
text-buffer flush performed on a focus change belongs to the text model;
the window events are returned here.) -/
def update_window_events (debounce_ms : Int) (tr : WindowTracker) (now_ms : Int)
    (hwnd : Int) (info : WindowInfo) : WindowTracker × List WindowEvent :=
  let is_new := hwnd ≠ tr.last_hwnd
  let rect_changed := is_new ∨ info.rect ≠ tr.last_rect
  let tr1 : WindowTracker :=
    { last_hwnd := hwnd, last_rect := info.rect,
      pending_rect := if is_new then none else tr.pending_rect }
  let evFocus :=
    if is_new then [WindowEvent.active_window_changed hwnd info now_ms] else []
  if rect_changed ∧ ¬ is_new then
    if debounce_ms ≤ 0 then
      (tr1, evFocus ++ [WindowEvent.window_rect_changed info now_ms])
    else
      ({ tr1 with pending_rect := some ⟨hwnd, info, now_ms⟩ }, evFocus)
  else (tr1, evFocus)

/-- One iteration of the rect-flusher thread
(`spawn_window_rect_flush_loop`, main.rs:1653): emit the pending rectangle
once it has been quiet for the debounce interval, dropping it instead when
the foreground window has moved on. -/
def rectFlushStep (debounce_ms : Int) (tr : WindowTracker) (now_ms : Int) :
    WindowTracker × List WindowEvent :=
  match tr.pending_rect with
  | none => (tr, [])
  | some pending =>
      if now_ms - pending.last_change_ms < debounce_ms then (tr, [])
      else if tr.last_hwnd ≠ pending.hwnd then
        ({ tr with pending_rect := none }, [])
      else
        ({ tr with pending_rect := none },
          [WindowEvent.window_rect_changed pending.window_info now_ms])

/-- An interleaved trace of window callbacks and flusher iterations. -/
inductive WStep
  | change (now hwnd : Int) (info : WindowInfo)
  | check (now : Int)
deriving DecidableEq, Repr

/-- Run a trace of window steps, collecting the emitted events in order. -/
def runWindowSteps (debounce_ms : Int) (tr : WindowTracker) :
    List WStep → WindowTracker × List WindowEvent
  | [] => (tr, [])
  | (WStep.change now hwnd info) :: rest =>
      let step := update_window_events debounce_ms tr now hwnd info
      let restRun := runWindowSteps debounce_ms step.1 rest
      (restRun.1, step.2 ++ restRun.2)
  | (WStep.check now) :: rest =>
      let step := rectFlushStep debounce_ms tr now
      let restRun := runWindowSteps debounce_ms step.1 rest
      (restRun.1, step.2 ++ restRun.2)

/-- The `window_rect_changed` events of a trace. -/
def rectEvents (evs : List WindowEvent) : List WindowEvent :=
  evs.filter fun e =>
    match e with
    | WindowEvent.window_rect_changed _ _ => true
    | _ => false

/-- A rectangle-change burst: each element is one geometry change
`(time, info)` of the tracked window followed by flusher checks at the
given times. -/
def flattenSegs (h : Int) (segs : List (Int × WindowInfo × List Int)) :
    List WStep :=
  (segs.map fun s => WStep.change s.1 h s.2.1 :: s.2.2.map WStep.check).flatten

/-- Every flusher check inside a burst segment runs strictly within the
debounce interval of that segment's change (the claim's premise that each
further change arrives within the debounce interval of the previous). -/
def segsOk (debounce_ms : Int) : List (Int × WindowInfo × List Int) → Prop
  | [] => True
  | (t, _, us) :: rest => (∀ u ∈ us, u - t < debounce_ms) ∧ segsOk debounce_ms rest

/-- Each change of the burst really changes the rectangle. -/
def segsRectsChange (lastRect : Option RectInfo) :
    List (Int × WindowInfo × List Int) → Prop
  | [] => True
  | (_, info, _) :: rest => info.rect ≠ lastRect ∧ segsRectsChange info.rect rest

/-! ### Storage schema (`init_db`, main.rs:2554) -/

/-- Tables created by `init_db`. -/
inductive TableName
  | sessions
  | events
deriving DecidableEq, Repr

/-- Indexes created by `init_db`. -/
inductive IndexName
  | idx_events_session_time
  | idx_events_session_type
deriving DecidableEq, Repr

/-- One row of the `sessions` table, the columns written by
`insert_session` (main.rs:2587). -/
structure SessionRow where
  session_id : List Char
  start_wall_ms : Int
  start_wall_iso : List Char
  obs_video_path : Option (List Char)
deriving DecidableEq

/-- One row of the `events` table, the columns written by `flush_events`
(main.rs:2600); the serialised JSON columns are kept as character data. -/
structure EventRow where
  session_id : List Char
  ts_wall_ms : Int
  ts_mono_ms : Int
  event_type : List Char
  process_name : Option (List Char)
  window_title : Option (List Char)
  window_class : Option (List Char)
  window_rect : Option (List Char)
  mouse : Option (List Char)
  payload : List Char
deriving DecidableEq

/-- The schema-relevant state of the storage file. -/
structure DbState where
  tables : List TableName
  indexes : List IndexName
  sessionRows : List SessionRow
  eventRows : List EventRow
deriving DecidableEq

/-- SQLite `CREATE TABLE IF NOT EXISTS`: a no-op when the table exists. -/
def createTableIfNotExists (t : TableName) (db : DbState) : DbState :=
  if t ∈ db.tables then db else { db with tables := db.tables ++ [t] }

/-- SQLite `CREATE INDEX IF NOT EXISTS`: a no-op when the index exists. -/
def createIndexIfNotExists (i : IndexName) (db : DbState) : DbState :=
  if i ∈ db.indexes then db else { db with indexes := db.indexes ++ [i] }

/-- `init_db` (main.rs:2554): the `execute_batch` of the four
`CREATE ... IF NOT EXISTS` statements, in source order.  The two PRAGMA
statements configure the connection and touch neither tables, indexes nor
rows. -/
def init_db (db : DbState) : DbState :=
  createIndexIfNotExists .idx_events_session_type
    (createIndexIfNotExists .idx_events_session_time
      (createTableIfNotExists .events
        (createTableIfNotExists .sessions db)))

/-- The storage file already contains the full schema. -/
def hasSchema (db : DbState) : Prop :=
  TableName.sessions ∈ db.tables ∧ TableName.events ∈ db.tables ∧
    IndexName.idx_events_session_time ∈ db.indexes ∧
    IndexName.idx_events_session_type ∈ db.indexes

/-! ### Mouse hook thread (`mouse_hook_proc`, main.rs:1837) -/

/-- `MouseClickMode` (main.rs:202). -/
inductive MouseClickMode
  | down
  | up
  | both
deriving DecidableEq, Repr

/-- The configuration the mouse hook consults. -/
structure MouseCfg where
  emit_mouse_move : Bool
  emit_mouse_click : Bool
  emit_mouse_scroll : Bool
  mouse_move_interval_ms : Int
  mouse_click_mode : MouseClickMode
deriving DecidableEq

/-- The mouse-path mutable state of `RecorderState`:
`last_mouse_move_ms` (initially `-1`) and the scroll aggregate. -/
structure MouseState where
  last_mouse_move_ms : Int
  scroll_buffer : Option ScrollBuffer
deriving DecidableEq

/-- A low-level mouse notification reaching the hook. -/
inductive MouseMsg
  | move (x y : Int)
  | click (x y : Int) (isDown : Bool)
  | wheel (x y delta : Int)
deriving DecidableEq

/-- Events emitted on the hook thread: moves and clicks are stamped with
`now_mono_ms` at emission; an aggregated scroll keeps the stamp
`flush_scroll_buffer` gives it (its last tick's time). -/
inductive MouseEvent
  | mouse_move (ts_mono_ms x y : Int)
  | mouse_click (ts_mono_ms x y : Int)
  | mouse_scroll (ev : ScrollEvent)
deriving DecidableEq

/-- The `ts_mono_ms` of an emitted mouse event. -/
def mouseEventTs : MouseEvent → Int
  | MouseEvent.mouse_move ts _ _ => ts
  | MouseEvent.mouse_click ts _ _ => ts
  | MouseEvent.mouse_scroll ev => ev.ts_mono_ms

/-- The click filter of `mouse_hook_proc` (main.rs:1875). -/
def clickAllowed (mode : MouseClickMode) (isDown : Bool) : Bool :=
  match mode with
  | MouseClickMode.down => isDown
  | MouseClickMode.up => !isDown
  | MouseClickMode.both => true

/-- `mouse_hook_proc` (main.rs:1837) for an unpaused recorder and
`code = 0`; `now` is `now_mono_ms` at the callback. -/
def mouse_hook_proc (cfg : MouseCfg) (st : MouseState) (now : Int) :
    MouseMsg → MouseState × List MouseEvent
  | MouseMsg.move x y =>
      if !cfg.emit_mouse_move then (st, [])
      else if 0 ≤ st.last_mouse_move_ms ∧
          now - st.last_mouse_move_ms < cfg.mouse_move_interval_ms then (st, [])
      else ({ st with last_mouse_move_ms := now },
        [MouseEvent.mouse_move now x y])
  | MouseMsg.click x y isDown =>
      if !cfg.emit_mouse_click then (st, [])
      else if !clickAllowed cfg.mouse_click_mode isDown then (st, [])
      else (st, [MouseEvent.mouse_click now x y])
  | MouseMsg.wheel x y delta =>
      if !cfg.emit_mouse_scroll then (st, [])
      else
        let res := buffer_mouse_scroll st.scroll_buffer now x y delta
        ({ st with scroll_buffer := res.1 },
          res.2.map MouseEvent.mouse_scroll)

/-- Run the hook over a sequence of timestamped notifications, collecting
emissions in order. -/
def runMouseMsgs (cfg : MouseCfg) (st : MouseState) :
    List (Int × MouseMsg) → MouseState × List MouseEvent
  | [] => (st, [])
  | (now, m) :: rest =>
      let step := mouse_hook_proc cfg st now m
      let restRun := runMouseMsgs cfg step.1 rest
      (restRun.1, step.2 ++ restRun.2)

/-- Timestamps of the emitted `mouse_scroll` events, in emission order. -/
def scrollTsList (evs : List MouseEvent) : List Int :=
  evs.filterMap fun e =>
    match e with
    | MouseEvent.mouse_scroll s => some s.ts_mono_ms
    | _ => none

/-- Timestamps of the emitted non-scroll events, in emission order. -/
def nonScrollTsList (evs : List MouseEvent) : List Int :=
  evs.filterMap fun e =>
    match e with
    | MouseEvent.mouse_scroll _ => none
    | MouseEvent.mouse_move ts _ _ => some ts
    | MouseEvent.mouse_click ts _ _ => some ts

/-- Lower bound on every future scroll emission: the aggregate's stamp if
one is pending, else the current time. -/
def scrollFloor (st : MouseState) (t0 : Int) : Int :=
  match st.scroll_buffer with
  | some b => b.last_ts_ms
  | none => t0

/-! ### Batched writer (`run_writer`, main.rs:2508) -/

/-- What one `rx.recv_timeout(flush_interval)` observation of the writer
loop yields: a record, a timeout (recording whether
`shutdown.load() && rx.is_empty()` held at that moment), or a disconnected
channel. -/
inductive WriterMsg
  | recv (e : EventRow)
  | timeout (shutdownAndEmpty : Bool)
  | disconnected
deriving DecidableEq

/-- Outcome of the writer loop over a finite observation trace. -/
structure WriterRun where
  attempted : List (List EventRow)
  committed : List (List EventRow)
  leftover : List EventRow
  exited : Bool
deriving DecidableEq

/-- The loop of `run_writer` (main.rs:2527).  A received record joins the
batch, which is flushed at 200 records; on a timeout a non-empty batch is
flushed, then the loop breaks if shutdown was requested and the channel is
empty; a disconnected channel breaks immediately.  `flushOk` tells which
`flush_events` transactions succeed: a failure is only logged (the batch is
cleared either way, never re-queued) and the loop continues, exactly as in
the source's `Err` branch. -/
def runWriterLoop (flushOk : List EventRow → Bool) :
    List WriterMsg → List EventRow → List (List EventRow) → List (List EventRow) →
      WriterRun
  | [], buf, att, com => ⟨att.reverse, com.reverse, buf, false⟩
  | (WriterMsg.recv e) :: rest, buf, att, com =>
      let buf2 := buf ++ [e]
      if 200 ≤ buf2.length then
        runWriterLoop flushOk rest [] (buf2 :: att)
          (if flushOk buf2 then buf2 :: com else com)
      else runWriterLoop flushOk rest buf2 att com
  | (WriterMsg.timeout sd) :: rest, buf, att, com =>
      let att2 := if buf.isEmpty then att else buf :: att
      let com2 := if buf.isEmpty then com
        else if flushOk buf then buf :: com else com
      if sd then ⟨att2.reverse, com2.reverse, [], true⟩
      else runWriterLoop flushOk rest [] att2 com2
  | WriterMsg.disconnected :: _, buf, att, com =>
      ⟨att.reverse, com.reverse, buf, true⟩

/-- `run_writer`'s loop from its initial empty batch. -/
def run_writer (flushOk : List EventRow → Bool) (msgs : List WriterMsg) :
    WriterRun :=
  runWriterLoop flushOk msgs [] [] []

/-- The records received over a trace, in order. -/
def receivedEvents : List WriterMsg → List EventRow
  | [] => []
  | (WriterMsg.recv e) :: rest => e :: receivedEvents rest
  | _ :: rest => receivedEvents rest

/-- A trace element that keeps the loop running: a record or a heartbeat
timeout without the shutdown-and-drained condition. -/
def bodyMsg : WriterMsg → Bool
  | WriterMsg.recv _ => true
  | WriterMsg.timeout sd => !sd
  | WriterMsg.disconnected => false

/-! ### Single-instance lock (`run_recorder` main.rs:349, `write_lock`
main.rs:707, `print_status` main.rs:658, `stop_recorder` main.rs:537,
`is_pid_running` main.rs:748) -/

/-- `SessionInfo` (main.rs:151). -/
structure SessionInfo where
  session_id : List Char
  start_wall_ms : Int
  start_wall_iso : List Char
  obs_video_path : Option (List Char)
deriving DecidableEq

/-- The key=value fields `write_lock` (main.rs:707) puts in the lock
marker. -/
structure LockFileContents where
  session_id : List Char
  pid : Nat
  start_wall_ms : Int
  start_wall_iso : List Char
deriving DecidableEq

/-- `write_lock` (main.rs:707): the marker records the session id, the
process id, and the session start time. -/
def write_lock (session : SessionInfo) (pid : Nat) : LockFileContents :=
  { session_id := session.session_id, pid := pid,
    start_wall_ms := session.start_wall_ms,
    start_wall_iso := session.start_wall_iso }

/-- Outcome of the startup lock guard. -/
inductive StartOutcome
  | alreadyRunning
  | started (lock : LockFileContents)
deriving DecidableEq

/-- The lock-guard prefix of `run_recorder` (main.rs:352-356, 376): if the
lock file exists the recorder prints "already running" and returns;
otherwise it writes its own marker and starts.  `pidRunning` is the
`is_pid_running` oracle: the startup path never consults it — staleness is
not checked here.  Returns the decision and the lock file afterwards. -/
def run_recorder_guard (lock : Option LockFileContents)
    (pidRunning : Nat → Bool) (session : SessionInfo) (pid : Nat) :
    StartOutcome × Option LockFileContents :=
  match lock with
  | some existing => (StartOutcome.alreadyRunning, some existing)
  | none =>
      (StartOutcome.started (write_lock session pid),
        some (write_lock session pid))

/-- What `print_status` reports. -/
inductive StatusReport
  | stopped
  | stoppedStaleCleared
  | paused
  | running
deriving DecidableEq, Repr

/-- `print_status` (main.rs:658): no lock file means stopped; a lock whose
parsed pid is no longer running is removed and reported as a cleared stale
lock; otherwise paused/running per the pause file.  `lockPid` is the pid
parsed by `read_lock_info` (`none` when absent or unparsable).  Returns the
report and whether the lock file remains. -/
def print_status (lockExists : Bool) (lockPid : Option Nat)
    (pauseExists : Bool) (pidRunning : Nat → Bool) : StatusReport × Bool :=
  if !lockExists then (StatusReport.stopped, false)
  else
    match lockPid with
    | some pid =>
        if !pidRunning pid then (StatusReport.stoppedStaleCleared, false)
        else if pauseExists then (StatusReport.paused, true)
        else (StatusReport.running, true)
    | none =>
        if pauseExists then (StatusReport.paused, true)
        else (StatusReport.running, true)

/-- Final file states after `stop_recorder`. -/
structure StopOutcome where
  stopFileRemains : Bool
  lockRemains : Bool
  staleCleared : Bool
deriving DecidableEq, Repr

/-- `stop_recorder` (main.rs:537): without a lock file nothing is written;
otherwise the stop signal is written, and if the lock's recorded process is
no longer running both the lock and the fresh stop signal are removed
(stale lock cleared). -/
def stop_recorder (lockExists : Bool) (lockPid : Option Nat)
    (pidRunning : Nat → Bool) : StopOutcome :=
  if !lockExists then ⟨false, false, false⟩
  else
    match lockPid with
    | some pid =>
        if !pidRunning pid then ⟨false, false, true⟩
        else ⟨true, true, false⟩
    | none => ⟨true, true, false⟩

end Framer

namespace Framer

/-- `should_capture_clipboard` is exactly the list check: not blocked and
allowed. -/
theorem should_capture_clipboard_eq (st : GateState) (pn : Option (List Char)) :
    should_capture_clipboard st pn =
      (!process_is_blocked st pn && process_is_allowed st pn) := by
  unfold should_capture_clipboard
  cases hb : process_is_blocked st pn <;> cases ha : process_is_allowed st pn <;> simp

/-- `should_capture_text` is the list check plus, in safe-text-only mode, the
accessibility checks. -/
theorem should_capture_text_eq (st : GateState) (pn : Option (List Char))
    (uia : Option UiaFocus) :
    should_capture_text st pn uia =
      (!process_is_blocked st pn && (process_is_allowed st pn &&
        (!st.safe_text_only || uiaTextChecksPass uia))) := by
  unfold should_capture_text uiaTextChecksPass
  cases hb : process_is_blocked st pn <;> cases ha : process_is_allowed st pn <;>
    cases hs : st.safe_text_only <;> simp
  all_goals
    rcases uia with _ | el
    · simp
    · cases hf : el.hasKeyboardFocus <;> cases hp : el.isPassword <;>
        cases he : (el.controlType == UIA_EditControlTypeId) <;>
        cases hd : (el.controlType == UIA_DocumentControlTypeId) <;>
        simp only [beq_iff_eq, beq_eq_false_iff_ne] at he hd <;>
        simp [hf, hp, he, hd]

/-- With a non-empty allowlist, `process_is_allowed` holds exactly when the
normalised base name matches an allowlist entry. -/
theorem process_is_allowed_true_iff (st : GateState) (pn : Option (List Char))
    (hne : st.allowlist_processes ≠ []) :
    process_is_allowed st pn = true ↔
      ∃ name, pn = some name ∧
        st.allowlist_processes.contains (normalize_process_name name) = true := by
  unfold process_is_allowed
  rw [if_neg (by simpa [List.isEmpty_iff] using hne)]
  rcases pn with _ | name
  · simp
  · simp

/-- C1 (counterexample): with safe-text-only mode enabled (the source's
default), an empty allowlist and an empty blocklist, a non-blocklisted
process is still denied text capture when the accessibility service is
unavailable — the claim says every non-blocklisted process is permitted when
the allowlist is empty. -/
theorem C1_counterexample :
    process_is_blocked ⟨true, [], []⟩
        (some ['n', 'o', 't', 'e', 'p', 'a', 'd', '.', 'e', 'x', 'e']) = false ∧
    (⟨true, [], []⟩ : GateState).allowlist_processes = [] ∧
    should_capture_text ⟨true, [], []⟩
        (some ['n', 'o', 't', 'e', 'p', 'a', 'd', '.', 'e', 'x', 'e']) none = false := by
  refine ⟨by decide, rfl, by decide⟩

/-- C1 (amended): for both capture decisions, a blocklist match always
denies; with a non-empty allowlist capture is permitted only when the base
name matches an allowlist entry; with an empty allowlist every
non-blocklisted process is permitted for clipboard capture, and for text
capture exactly when safe-text-only mode is off or the accessibility checks
(focused, non-password, edit/document control) pass. -/
theorem C1_privacy_gate_amended (st : GateState) (pn : Option (List Char))
    (uia : Option UiaFocus) :
    (process_is_blocked st pn = true →
      should_capture_text st pn uia = false ∧
      should_capture_clipboard st pn = false) ∧
    (st.allowlist_processes ≠ [] →
      (should_capture_text st pn uia = true →
        ∃ name, pn = some name ∧
          st.allowlist_processes.contains (normalize_process_name name) = true) ∧
      (should_capture_clipboard st pn = true →
        ∃ name, pn = some name ∧
          st.allowlist_processes.contains (normalize_process_name name) = true)) ∧
    (st.allowlist_processes = [] → process_is_blocked st pn = false →
      should_capture_clipboard st pn = true ∧
      (should_capture_text st pn uia = true ↔
        (st.safe_text_only = false ∨ uiaTextChecksPass uia = true))) := by
  have ht := should_capture_text_eq st pn uia
  have hc := should_capture_clipboard_eq st pn
  refine ⟨?_, ?_, ?_⟩
  · intro hb
    rw [ht, hc, hb]
    simp
  · intro hne
    constructor
    · intro h
      rw [ht] at h
      have : process_is_allowed st pn = true := by
        cases hpa : process_is_allowed st pn
        · rw [hpa] at h; simp at h
        · rfl
      exact (process_is_allowed_true_iff st pn hne).mp this
    · intro h
      rw [hc] at h
      have : process_is_allowed st pn = true := by
        cases hpa : process_is_allowed st pn
        · rw [hpa] at h; simp at h
        · rfl
      exact (process_is_allowed_true_iff st pn hne).mp this
  · intro hempty hb
    have hpa : process_is_allowed st pn = true := by
      unfold process_is_allowed
      rw [if_pos (by simp [hempty])]
    rw [ht, hc, hb, hpa]
    constructor
    · simp
    · cases hs : st.safe_text_only <;> cases hu : uiaTextChecksPass uia <;> simp

/-- Witness for C1 (amended) at a concrete state: blocked process denied,
allowlisted process required, empty-allowlist clipboard permitted. -/
theorem C1_privacy_gate_amended_witness :
    should_capture_text ⟨false, [], []⟩ (some ['a', '.', 'e', 'x', 'e']) none = true ∧
    should_capture_clipboard ⟨false, [], []⟩ (some ['a', '.', 'e', 'x', 'e']) = true := by
  have h := C1_privacy_gate_amended ⟨false, [], []⟩
    (some ['a', '.', 'e', 'x', 'e']) none
  have h3 := h.2.2 rfl (by decide)
  exact ⟨h3.2.mpr (Or.inl rfl), h3.1⟩

/-- One hook callback: any non-scroll emission is stamped `now`; any scroll
emission carries the previous aggregate's stamp; the resulting aggregate,
if it changed, is stamped `now`. -/
theorem mouse_hook_step_props (cfg : MouseCfg) (st : MouseState) (t1 : Int)
    (m : MouseMsg) :
    (nonScrollTsList (mouse_hook_proc cfg st t1 m).2 = [] ∨
      nonScrollTsList (mouse_hook_proc cfg st t1 m).2 = [t1]) ∧
    (scrollTsList (mouse_hook_proc cfg st t1 m).2 = [] ∨
      ∃ b, st.scroll_buffer = some b ∧
        scrollTsList (mouse_hook_proc cfg st t1 m).2 = [b.last_ts_ms]) ∧
    ((mouse_hook_proc cfg st t1 m).1.scroll_buffer = st.scroll_buffer ∨
      ∃ bn, (mouse_hook_proc cfg st t1 m).1.scroll_buffer = some bn ∧
        bn.last_ts_ms = t1) := by
  cases m with
  | move x y =>
      cases hm : cfg.emit_mouse_move with
      | false =>
          have hstep : mouse_hook_proc cfg st t1 (MouseMsg.move x y) = (st, []) := by
            simp [mouse_hook_proc, hm]
          rw [hstep]
          exact ⟨Or.inl rfl, Or.inl rfl, Or.inl rfl⟩
      | true =>
          by_cases hrl : 0 ≤ st.last_mouse_move_ms ∧
              t1 - st.last_mouse_move_ms < cfg.mouse_move_interval_ms
          · have hstep : mouse_hook_proc cfg st t1 (MouseMsg.move x y) = (st, []) := by
              simp [mouse_hook_proc, hm, hrl]
            rw [hstep]
            exact ⟨Or.inl rfl, Or.inl rfl, Or.inl rfl⟩
          · have hstep : mouse_hook_proc cfg st t1 (MouseMsg.move x y) =
                ({ st with last_mouse_move_ms := t1 },
                  [MouseEvent.mouse_move t1 x y]) := by
              simp [mouse_hook_proc, hm, hrl]
            rw [hstep]
            exact ⟨Or.inr rfl, Or.inl rfl, Or.inl rfl⟩
  | click x y isDown =>
      cases hm : cfg.emit_mouse_click with
      | false =>
          have hstep : mouse_hook_proc cfg st t1 (MouseMsg.click x y isDown) =
              (st, []) := by
            simp [mouse_hook_proc, hm]
          rw [hstep]
          exact ⟨Or.inl rfl, Or.inl rfl, Or.inl rfl⟩
      | true =>
          cases hca : clickAllowed cfg.mouse_click_mode isDown with
          | false =>
              have hstep : mouse_hook_proc cfg st t1 (MouseMsg.click x y isDown) =
                  (st, []) := by
                simp [mouse_hook_proc, hm, hca]
              rw [hstep]
              exact ⟨Or.inl rfl, Or.inl rfl, Or.inl rfl⟩
          | true =>
              have hstep : mouse_hook_proc cfg st t1 (MouseMsg.click x y isDown) =
                  (st, [MouseEvent.mouse_click t1 x y]) := by
                simp [mouse_hook_proc, hm, hca]
              rw [hstep]
              exact ⟨Or.inr rfl, Or.inl rfl, Or.inl rfl⟩
  | wheel x y delta =>
      cases hm : cfg.emit_mouse_scroll with
      | false =>
          have hstep : mouse_hook_proc cfg st t1 (MouseMsg.wheel x y delta) =
              (st, []) := by
            simp [mouse_hook_proc, hm]
          rw [hstep]
          exact ⟨Or.inl rfl, Or.inl rfl, Or.inl rfl⟩
      | true =>
          rcases hb : st.scroll_buffer with _ | b
          · have hstep : mouse_hook_proc cfg st t1 (MouseMsg.wheel x y delta) =
                ({ st with scroll_buffer := some ⟨t1, x, y, delta, 1⟩ }, []) := by
              simp [mouse_hook_proc, hm, hb, buffer_mouse_scroll]
            rw [hstep]
            exact ⟨Or.inl rfl, Or.inl rfl, Or.inr ⟨⟨t1, x, y, delta, 1⟩, rfl, rfl⟩⟩
          · by_cases hgap : t1 - b.last_ts_ms ≤ 200
            · have hstep : mouse_hook_proc cfg st t1 (MouseMsg.wheel x y delta) =
                  ({ st with scroll_buffer := some (ScrollBuffer.mk t1 x y
                    (b.total_delta + delta) (b.ticks + 1)) }, []) := by
                simp [mouse_hook_proc, hm, hb, buffer_mouse_scroll, hgap]
              rw [hstep]
              exact ⟨Or.inl rfl, Or.inl rfl,
                Or.inr ⟨ScrollBuffer.mk t1 x y (b.total_delta + delta) (b.ticks + 1),
                  rfl, rfl⟩⟩
            · have hstep : mouse_hook_proc cfg st t1 (MouseMsg.wheel x y delta) =
                  ({ st with scroll_buffer := some ⟨t1, x, y, delta, 1⟩ },
                    [MouseEvent.mouse_scroll
                      ⟨b.last_ts_ms, b.x, b.y, b.total_delta, b.ticks⟩]) := by
                simp [mouse_hook_proc, hm, hb, buffer_mouse_scroll,
                  flush_scroll_buffer, hgap]
              rw [hstep]
              exact ⟨Or.inl rfl, Or.inr ⟨b, rfl, rfl⟩,
                Or.inr ⟨⟨t1, x, y, delta, 1⟩, rfl, rfl⟩⟩

/-- The scroll floor never decreases across a hook callback. -/
theorem scrollFloor_step_le (cfg : MouseCfg) (st : MouseState) (t1 : Int)
    (m : MouseMsg) (t0 : Int)
    (hbuf : ∀ b, st.scroll_buffer = some b → b.last_ts_ms ≤ t0)
    (h01 : t0 ≤ t1) :
    scrollFloor st t0 ≤ scrollFloor (mouse_hook_proc cfg st t1 m).1 t1 := by
  obtain ⟨_, _, hP3⟩ := mouse_hook_step_props cfg st t1 m
  rcases hP3 with h | ⟨bn, hbn, hlast⟩
  · unfold scrollFloor
    rw [h]
    rcases hsb : st.scroll_buffer with _ | b
    · exact h01
    · exact le_refl _
  · have h2 : scrollFloor (mouse_hook_proc cfg st t1 m).1 t1 = bn.last_ts_ms := by
      unfold scrollFloor
      rw [hbn]
    rw [h2]
    rcases hsb : st.scroll_buffer with _ | b
    · have h3 : scrollFloor st t0 = t0 := by
        unfold scrollFloor
        rw [hsb]
      rw [h3]
      exact le_of_le_of_eq h01 hlast.symm
    · have h3 : scrollFloor st t0 = b.last_ts_ms := by
        unfold scrollFloor
        rw [hsb]
      rw [h3]
      exact le_of_le_of_eq ((hbuf b hsb).trans h01) hlast.symm

/-- Over notifications with non-decreasing times, the hook thread's
non-scroll stamps are non-decreasing in emission order and bounded below by
the start time, and its scroll stamps are non-decreasing in emission order
and bounded below by the scroll floor. -/
theorem runMouseMsgs_mono (cfg : MouseCfg) :
    ∀ (msgs : List (Int × MouseMsg)) (st : MouseState) (t0 : Int),
      List.Chain' (fun a b => a ≤ b) (t0 :: msgs.map Prod.fst) →
      (∀ b, st.scroll_buffer = some b → b.last_ts_ms ≤ t0) →
      (List.Chain' (fun a b => a ≤ b)
          (nonScrollTsList (runMouseMsgs cfg st msgs).2) ∧
        ∀ u ∈ nonScrollTsList (runMouseMsgs cfg st msgs).2, t0 ≤ u) ∧
      (List.Chain' (fun a b => a ≤ b)
          (scrollTsList (runMouseMsgs cfg st msgs).2) ∧
        ∀ u ∈ scrollTsList (runMouseMsgs cfg st msgs).2,
          scrollFloor st t0 ≤ u) := by
  intro msgs
  induction msgs with
  | nil =>
      intro st t0 _ _
      refine ⟨⟨?_, ?_⟩, ?_, ?_⟩ <;>
        simp [runMouseMsgs, nonScrollTsList, scrollTsList]
  | cons p rest ih =>
      obtain ⟨t1, m⟩ := p
      intro st t0 hchain hbuf
      rw [List.map_cons] at hchain
      have h01 : t0 ≤ t1 := (List.chain'_cons.mp hchain).1
      have hchain' : List.Chain' (fun a b => a ≤ b) (t1 :: rest.map Prod.fst) :=
        (List.chain'_cons.mp hchain).2
      obtain ⟨hP1, hP2, hP3⟩ := mouse_hook_step_props cfg st t1 m
      have hbuf' : ∀ b, (mouse_hook_proc cfg st t1 m).1.scroll_buffer = some b →
          b.last_ts_ms ≤ t1 := by
        intro b hbm
        rcases hP3 with h | ⟨bn, hbn, hlast⟩
        · rw [h] at hbm
          exact (hbuf b hbm).trans h01
        · rw [hbn] at hbm
          injection hbm with hbe
          rw [← hbe]
          exact le_of_eq hlast
      obtain ⟨⟨hc1, hb1⟩, hc2, hb2⟩ :=
        ih (mouse_hook_proc cfg st t1 m).1 t1 hchain' hbuf'
      have hfloorle : scrollFloor st t0 ≤
          scrollFloor (mouse_hook_proc cfg st t1 m).1 t1 :=
        scrollFloor_step_le cfg st t1 m t0 hbuf h01
      have hrun : runMouseMsgs cfg st ((t1, m) :: rest) =
          ((runMouseMsgs cfg (mouse_hook_proc cfg st t1 m).1 rest).1,
            (mouse_hook_proc cfg st t1 m).2 ++
              (runMouseMsgs cfg (mouse_hook_proc cfg st t1 m).1 rest).2) := rfl
      rw [hrun]
      have hsplit1 : nonScrollTsList ((mouse_hook_proc cfg st t1 m).2 ++
          (runMouseMsgs cfg (mouse_hook_proc cfg st t1 m).1 rest).2) =
          nonScrollTsList (mouse_hook_proc cfg st t1 m).2 ++
            nonScrollTsList (runMouseMsgs cfg (mouse_hook_proc cfg st t1 m).1 rest).2 := by
        simp [nonScrollTsList]
      have hsplit2 : scrollTsList ((mouse_hook_proc cfg st t1 m).2 ++
          (runMouseMsgs cfg (mouse_hook_proc cfg st t1 m).1 rest).2) =
          scrollTsList (mouse_hook_proc cfg st t1 m).2 ++
            scrollTsList (runMouseMsgs cfg (mouse_hook_proc cfg st t1 m).1 rest).2 := by
        simp [scrollTsList]
      refine ⟨⟨?_, ?_⟩, ?_, ?_⟩
      · rw [hsplit1]
        rcases hP1 with h | h <;> rw [h]
        · simpa using hc1
        · rw [List.singleton_append]
          refine List.chain'_cons'.mpr ⟨?_, hc1⟩
          intro y hy
          exact hb1 y (List.mem_of_mem_head? hy)
      · rw [hsplit1]
        rcases hP1 with h | h <;> rw [h] <;> intro u hu
        · exact h01.trans (hb1 u (by simpa using hu))
        · rw [List.singleton_append] at hu
          rcases List.mem_cons.mp hu with rfl | hu
          · exact h01
          · exact h01.trans (hb1 u hu)
      · rw [hsplit2]
        rcases hP2 with h | ⟨b, hsb, h⟩ <;> rw [h]
        · simpa using hc2
        · rw [List.singleton_append]
          refine List.chain'_cons'.mpr ⟨?_, hc2⟩
          intro y hy
          have hy' := hb2 y (List.mem_of_mem_head? hy)
          have hfl : scrollFloor st t0 = b.last_ts_ms := by
            unfold scrollFloor
            rw [hsb]
          calc b.last_ts_ms = scrollFloor st t0 := hfl.symm
            _ ≤ scrollFloor (mouse_hook_proc cfg st t1 m).1 t1 := hfloorle
            _ ≤ y := hy'
      · rw [hsplit2]
        rcases hP2 with h | ⟨b, hsb, h⟩ <;> rw [h] <;> intro u hu
        · exact hfloorle.trans (hb2 u (by simpa using hu))
        · rw [List.singleton_append] at hu
          rcases List.mem_cons.mp hu with rfl | hu
          · unfold scrollFloor
            rw [hsb]
          · exact hfloorle.trans (hb2 u hu)

/-- C7 (counterexample): on the hook thread a buffered wheel tick at 0 ms,
a move at 100 ms, then a wheel tick at 301 ms flushing the aggregate, emit
`mouse_move` (ts 100) followed by `mouse_scroll` (ts 0) — the thread's
emission-order timestamps decrease, because the aggregated scroll keeps its
last tick's stamp. -/
theorem C7_counterexample :
    (runMouseMsgs ⟨true, true, true, 33, MouseClickMode.both⟩ ⟨-1, none⟩
        [(0, MouseMsg.wheel 1 1 120), (100, MouseMsg.move 5 5),
          (301, MouseMsg.wheel 1 1 120)]).2.map mouseEventTs = [100, 0] ∧
    ¬ List.Chain' (fun a b => a ≤ b)
      ((runMouseMsgs ⟨true, true, true, 33, MouseClickMode.both⟩ ⟨-1, none⟩
        [(0, MouseMsg.wheel 1 1 120), (100, MouseMsg.move 5 5),
          (301, MouseMsg.wheel 1 1 120)]).2.map mouseEventTs) := by
  have h1 : (runMouseMsgs ⟨true, true, true, 33, MouseClickMode.both⟩ ⟨-1, none⟩
      [(0, MouseMsg.wheel 1 1 120), (100, MouseMsg.move 5 5),
        (301, MouseMsg.wheel 1 1 120)]).2.map mouseEventTs = [100, 0] := by decide
  refine ⟨h1, ?_⟩
  rw [h1]
  intro hch
  have h2 := (List.chain'_cons.mp hch).1
  norm_num at h2

/-- C7 (amended): from each producer thread, the events stamped at emission
time — every type except the aggregated `mouse_scroll` — carry
non-decreasing `ts_mono_ms` in emission order, and the aggregated
`mouse_scroll` events (stamped with their last tick's time) are
non-decreasing among themselves; the two classes may interleave
non-monotonically on the same thread. -/
theorem C7_per_thread_monotonicity_amended (cfg : MouseCfg)
    (msgs : List (Int × MouseMsg)) (t0 : Int)
    (hchain : List.Chain' (fun a b => a ≤ b) (t0 :: msgs.map Prod.fst)) :
    List.Chain' (fun a b => a ≤ b)
      (nonScrollTsList (runMouseMsgs cfg ⟨-1, none⟩ msgs).2) ∧
    List.Chain' (fun a b => a ≤ b)
      (scrollTsList (runMouseMsgs cfg ⟨-1, none⟩ msgs).2) := by
  obtain ⟨⟨hc1, _⟩, hc2, _⟩ :=
    runMouseMsgs_mono cfg msgs ⟨-1, none⟩ t0 hchain (by intro b hb; cases hb)
  exact ⟨hc1, hc2⟩

/-- Witness for C7 (amended) on the counterexample trace: the move stamps
`[100]` and the scroll stamps `[0, 301]` are each non-decreasing although
the merged emission order is not. -/
theorem C7_per_thread_monotonicity_amended_witness :
    List.Chain' (fun a b => a ≤ b)
      (nonScrollTsList (runMouseMsgs ⟨true, true, true, 33, MouseClickMode.both⟩
        ⟨-1, none⟩ [(0, MouseMsg.wheel 1 1 120), (100, MouseMsg.move 5 5),
          (301, MouseMsg.wheel 1 1 120)]).2) ∧
    List.Chain' (fun a b => a ≤ b)
      (scrollTsList (runMouseMsgs ⟨true, true, true, 33, MouseClickMode.both⟩
        ⟨-1, none⟩ [(0, MouseMsg.wheel 1 1 120), (100, MouseMsg.move 5 5),
          (301, MouseMsg.wheel 1 1 120)]).2) :=
  C7_per_thread_monotonicity_amended ⟨true, true, true, 33, MouseClickMode.both⟩
    [(0, MouseMsg.wheel 1 1 120), (100, MouseMsg.move 5 5),
      (301, MouseMsg.wheel 1 1 120)] 0
    (by norm_num [List.chain'_cons])

/-- A clean-shutdown trace (records and heartbeats, then the
shutdown-and-drained timeout) flushes everything received and exits with an
empty buffer. -/
theorem runWriterLoop_drain (flushOk : List EventRow → Bool) :
    ∀ (msgs : List WriterMsg) (buf : List EventRow)
      (att com : List (List EventRow)),
      (∀ m ∈ msgs, bodyMsg m = true) →
      (runWriterLoop flushOk (msgs ++ [WriterMsg.timeout true]) buf att com).attempted.flatten =
        att.reverse.flatten ++ buf ++ receivedEvents msgs ∧
      (runWriterLoop flushOk (msgs ++ [WriterMsg.timeout true]) buf att com).leftover = [] ∧
      (runWriterLoop flushOk (msgs ++ [WriterMsg.timeout true]) buf att com).exited = true := by
  intro msgs
  induction msgs with
  | nil =>
      intro buf att com _
      by_cases hb : buf.isEmpty
      · have hbuf : buf = [] := List.isEmpty_iff.mp hb
        subst hbuf
        simp [runWriterLoop, receivedEvents]
      · simp [runWriterLoop, receivedEvents, hb]
  | cons m rest ih =>
      intro buf att com hbody
      have hm := hbody m (List.mem_cons_self _ _)
      have hrest : ∀ m2 ∈ rest, bodyMsg m2 = true :=
        fun m2 hm2 => hbody m2 (List.mem_cons_of_mem _ hm2)
      cases m with
      | recv e =>
          rw [show (WriterMsg.recv e :: rest) ++ [WriterMsg.timeout true] =
            WriterMsg.recv e :: (rest ++ [WriterMsg.timeout true]) from rfl]
          have hstep : runWriterLoop flushOk
              (WriterMsg.recv e :: (rest ++ [WriterMsg.timeout true])) buf att com =
              if 200 ≤ (buf ++ [e]).length then
                runWriterLoop flushOk (rest ++ [WriterMsg.timeout true]) []
                  ((buf ++ [e]) :: att)
                  (if flushOk (buf ++ [e]) then (buf ++ [e]) :: com else com)
              else runWriterLoop flushOk (rest ++ [WriterMsg.timeout true])
                (buf ++ [e]) att com := rfl
          by_cases hfull : 200 ≤ (buf ++ [e]).length
          · rw [hstep, if_pos hfull]
            obtain ⟨h1, h2, h3⟩ := ih [] ((buf ++ [e]) :: att)
              (if flushOk (buf ++ [e]) then (buf ++ [e]) :: com else com) hrest
            refine ⟨?_, h2, h3⟩
            rw [h1]
            simp [receivedEvents]
          · rw [hstep, if_neg hfull]
            obtain ⟨h1, h2, h3⟩ := ih (buf ++ [e]) att com hrest
            refine ⟨?_, h2, h3⟩
            rw [h1]
            simp [receivedEvents]
      | timeout sd =>
          have hsd : sd = false := by
            simp [bodyMsg] at hm
            exact hm
          subst hsd
          rw [show (WriterMsg.timeout false :: rest) ++ [WriterMsg.timeout true] =
            WriterMsg.timeout false :: (rest ++ [WriterMsg.timeout true]) from rfl]
          have hstep : runWriterLoop flushOk
              (WriterMsg.timeout false :: (rest ++ [WriterMsg.timeout true])) buf att
              com =
              runWriterLoop flushOk (rest ++ [WriterMsg.timeout true]) []
                (if buf.isEmpty then att else buf :: att)
                (if buf.isEmpty then com
                  else if flushOk buf then buf :: com else com) := rfl
          rw [hstep]
          obtain ⟨h1, h2, h3⟩ := ih [] (if buf.isEmpty then att else buf :: att)
            (if buf.isEmpty then com else if flushOk buf then buf :: com else com) hrest
          refine ⟨?_, h2, h3⟩
          rw [h1]
          by_cases hb : buf.isEmpty
          · have hbuf : buf = [] := List.isEmpty_iff.mp hb
            subst hbuf
            simp [receivedEvents]
          · simp [hb, receivedEvents]
      | disconnected => simp [bodyMsg] at hm

/-- Every batch handed to `flush_events` is non-empty and holds at most 200
records. -/
theorem runWriterLoop_sizes (flushOk : List EventRow → Bool) :
    ∀ (msgs : List WriterMsg) (buf : List EventRow)
      (att com : List (List EventRow)),
      (∀ b ∈ att, b ≠ [] ∧ b.length ≤ 200) → buf.length < 200 →
      ∀ b ∈ (runWriterLoop flushOk msgs buf att com).attempted,
        b ≠ [] ∧ b.length ≤ 200 := by
  intro msgs
  induction msgs with
  | nil =>
      intro buf att com hatt _
      simpa [runWriterLoop] using fun b hb => hatt b (List.mem_reverse.mp hb)
  | cons m rest ih =>
      intro buf att com hatt hbuf
      cases m with
      | recv e =>
          have hlen : (buf ++ [e]).length ≤ 200 := by
            simp only [List.length_append, List.length_singleton]
            omega
          by_cases hfull : 200 ≤ (buf ++ [e]).length
          · simp only [runWriterLoop, hfull, if_pos]
            refine ih [] _ _ ?_ (by simp)
            intro b hb
            rcases List.mem_cons.mp hb with hb | hb
            · subst hb
              exact ⟨by simp, hlen⟩
            · exact hatt b hb
          · simp only [runWriterLoop, hfull, if_neg]
            refine ih (buf ++ [e]) _ _ hatt ?_
            omega
      | timeout sd =>
          have hatt2 : ∀ b ∈ (if buf.isEmpty then att else buf :: att),
              b ≠ [] ∧ b.length ≤ 200 := by
            by_cases hb : buf.isEmpty
            · simpa [hb] using hatt
            · simp only [hb, if_neg, Bool.false_eq_true, not_false_iff]
              intro b hmem
              rcases List.mem_cons.mp hmem with hmem | hmem
              · subst hmem
                exact ⟨fun hcon => by simp [hcon] at hb, le_of_lt hbuf⟩
              · exact hatt b hmem
          cases sd with
          | true =>
              simp only [runWriterLoop]
              simpa using fun b hb => hatt2 b (List.mem_reverse.mp hb)
          | false =>
              simp only [runWriterLoop]
              exact ih [] _ _ hatt2 (by simp)
      | disconnected =>
          simp only [runWriterLoop]
          simpa using fun b hb => hatt b (List.mem_reverse.mp hb)

/-- The committed batches are exactly the attempted batches whose
transaction succeeded: a failed batch is dropped, never retried. -/
theorem runWriterLoop_committed (flushOk : List EventRow → Bool) :
    ∀ (msgs : List WriterMsg) (buf : List EventRow)
      (att : List (List EventRow)),
      (runWriterLoop flushOk msgs buf att (att.filter flushOk)).committed =
        (runWriterLoop flushOk msgs buf att (att.filter flushOk)).attempted.filter
          flushOk := by
  intro msgs
  induction msgs with
  | nil =>
      intro buf att
      simp [runWriterLoop, List.filter_reverse]
  | cons m rest ih =>
      intro buf att
      cases m with
      | recv e =>
          have hstep : runWriterLoop flushOk (WriterMsg.recv e :: rest) buf att
              (att.filter flushOk) =
              if 200 ≤ (buf ++ [e]).length then
                runWriterLoop flushOk rest [] ((buf ++ [e]) :: att)
                  (if flushOk (buf ++ [e]) then (buf ++ [e]) :: att.filter flushOk
                    else att.filter flushOk)
              else runWriterLoop flushOk rest (buf ++ [e]) att
                (att.filter flushOk) := rfl
          have hfe : (if flushOk (buf ++ [e]) then (buf ++ [e]) :: att.filter flushOk
              else att.filter flushOk) = ((buf ++ [e]) :: att).filter flushOk := by
            rw [List.filter_cons]
          by_cases hfull : 200 ≤ (buf ++ [e]).length
          · rw [hstep, if_pos hfull, hfe]
            exact ih [] ((buf ++ [e]) :: att)
          · rw [hstep, if_neg hfull]
            exact ih (buf ++ [e]) att
      | timeout sd =>
          have hstep : runWriterLoop flushOk (WriterMsg.timeout sd :: rest) buf att
              (att.filter flushOk) =
              (if sd then
                (⟨(if buf.isEmpty then att else buf :: att).reverse,
                  (if buf.isEmpty then att.filter flushOk
                    else if flushOk buf then buf :: att.filter flushOk
                    else att.filter flushOk).reverse, [], true⟩ : WriterRun)
              else runWriterLoop flushOk rest []
                (if buf.isEmpty then att else buf :: att)
                (if buf.isEmpty then att.filter flushOk
                  else if flushOk buf then buf :: att.filter flushOk
                  else att.filter flushOk)) := rfl
          have hfe : (if buf.isEmpty then att.filter flushOk
              else if flushOk buf then buf :: att.filter flushOk
              else att.filter flushOk) =
              (if buf.isEmpty then att else buf :: att).filter flushOk := by
            by_cases hb : buf.isEmpty
            · simp [hb]
            · simp [hb, List.filter_cons]
          rw [hstep, hfe]
          cases sd with
          | true => simp [List.filter_reverse]
          | false => exact ih [] _
      | disconnected =>
          show WriterRun.committed
              ⟨att.reverse, (att.filter flushOk).reverse, buf, true⟩ =
            (List.filter flushOk
              (WriterRun.attempted ⟨att.reverse, (att.filter flushOk).reverse, buf, true⟩))
          simp [List.filter_reverse]

/-- Which transactions succeed influences neither the batches attempted nor
the loop's control flow. -/
theorem runWriterLoop_indep (f g : List EventRow → Bool) :
    ∀ (msgs : List WriterMsg) (buf : List EventRow)
      (att com com2 : List (List EventRow)),
      (runWriterLoop f msgs buf att com).attempted =
        (runWriterLoop g msgs buf att com2).attempted ∧
      (runWriterLoop f msgs buf att com).leftover =
        (runWriterLoop g msgs buf att com2).leftover ∧
      (runWriterLoop f msgs buf att com).exited =
        (runWriterLoop g msgs buf att com2).exited := by
  intro msgs
  induction msgs with
  | nil => intro buf att com com2; exact ⟨rfl, rfl, rfl⟩
  | cons m rest ih =>
      intro buf att com com2
      cases m with
      | recv e =>
          by_cases hfull : 200 ≤ (buf ++ [e]).length
          · simp only [runWriterLoop, hfull, if_pos]
            exact ih [] _ _ _
          · simp only [runWriterLoop, hfull, if_neg]
            exact ih (buf ++ [e]) _ _ _
      | timeout sd =>
          cases sd with
          | true => exact ⟨rfl, rfl, rfl⟩
          | false =>
              simp only [runWriterLoop]
              exact ih [] _ _ _
      | disconnected => exact ⟨rfl, rfl, rfl⟩

/-- C4: over any clean-shutdown trace, the batched writer flushes exactly
the received records, in order (draining the channel and flushing the
remainder before exiting with an empty buffer); every flushed batch is
non-empty with at most 200 records (the size threshold); the committed
batches are exactly the attempted ones whose transaction succeeded — a
failed batch is discarded without retry or re-queueing; and the set of
attempted batches and the loop's control flow do not depend on which
transactions fail. -/
theorem C4_batched_writer (flushOk g : List EventRow → Bool)
    (body : List WriterMsg) (hbody : ∀ m ∈ body, bodyMsg m = true) :
    (run_writer flushOk (body ++ [WriterMsg.timeout true])).attempted.flatten =
      receivedEvents body ∧
    (run_writer flushOk (body ++ [WriterMsg.timeout true])).leftover = [] ∧
    (run_writer flushOk (body ++ [WriterMsg.timeout true])).exited = true ∧
    (∀ b ∈ (run_writer flushOk (body ++ [WriterMsg.timeout true])).attempted,
      b ≠ [] ∧ b.length ≤ 200) ∧
    (run_writer flushOk (body ++ [WriterMsg.timeout true])).committed =
      (run_writer flushOk (body ++ [WriterMsg.timeout true])).attempted.filter
        flushOk ∧
    (run_writer flushOk (body ++ [WriterMsg.timeout true])).attempted =
      (run_writer g (body ++ [WriterMsg.timeout true])).attempted := by
  obtain ⟨h1, h2, h3⟩ :=
    runWriterLoop_drain flushOk body [] [] [] hbody
  refine ⟨by simpa [run_writer] using h1, h2, h3, ?_, ?_, ?_⟩
  · exact runWriterLoop_sizes flushOk _ [] [] [] (by simp) (by simp)
  · exact runWriterLoop_committed flushOk _ [] []
  · exact (runWriterLoop_indep flushOk g _ [] [] [] []).1

/-- Witness for C4: two records with an intervening heartbeat, every
transaction failing — both records are still attempted in order, nothing is
committed, and the loop exits cleanly. -/
theorem C4_batched_writer_witness :
    (run_writer (fun _ => false)
        ([WriterMsg.recv ⟨[], 0, 0, [], none, none, none, none, none, []⟩,
          WriterMsg.timeout false,
          WriterMsg.recv ⟨[], 1, 1, [], none, none, none, none, none, []⟩] ++
          [WriterMsg.timeout true])).attempted.flatten =
      [⟨[], 0, 0, [], none, none, none, none, none, []⟩,
        ⟨[], 1, 1, [], none, none, none, none, none, []⟩] ∧
    (run_writer (fun _ => false)
        ([WriterMsg.recv ⟨[], 0, 0, [], none, none, none, none, none, []⟩,
          WriterMsg.timeout false,
          WriterMsg.recv ⟨[], 1, 1, [], none, none, none, none, none, []⟩] ++
          [WriterMsg.timeout true])).committed = [] ∧
    (run_writer (fun _ => false)
        ([WriterMsg.recv ⟨[], 0, 0, [], none, none, none, none, none, []⟩,
          WriterMsg.timeout false,
          WriterMsg.recv ⟨[], 1, 1, [], none, none, none, none, none, []⟩] ++
          [WriterMsg.timeout true])).exited = true := by
  have h := C4_batched_writer (fun _ => false) (fun _ => true)
    [WriterMsg.recv ⟨[], 0, 0, [], none, none, none, none, none, []⟩,
      WriterMsg.timeout false,
      WriterMsg.recv ⟨[], 1, 1, [], none, none, none, none, none, []⟩]
    (by decide)
  refine ⟨h.1.trans (by decide), ?_, h.2.2.1⟩
  rw [h.2.2.2.2.1]
  decide

/-- C9 (counterexample): a lock file whose recorded owner (pid 4242) is not
running — `is_pid_running` answering false for every pid — still makes
startup report "already running" and leaves the lock in place: the startup
guard checks only that the file exists, so the stale lock is treated as an
active instance instead of being cleared. -/
theorem C9_counterexample :
    (fun _ => false : Nat → Bool) 4242 = false ∧
    run_recorder_guard (some ⟨['s'], 4242, 0, []⟩) (fun _ => false)
        ⟨['n'], 1, [], none⟩ 7 =
      (StartOutcome.alreadyRunning, some ⟨['s'], 4242, 0, []⟩) := by
  exact ⟨rfl, rfl⟩

/-- C9 (amended): a lock marker carrying the process id, session id and
start time is written at startup and any present lock file — stale or not —
blocks a second instance; a stale lock (recorded owner no longer running)
is detected and cleared by the status and stop commands, not by the startup
guard. -/
theorem C9_lock_amended (session : SessionInfo) (pid : Nat)
    (pidRunning : Nat → Bool) :
    (run_recorder_guard none pidRunning session pid =
      (StartOutcome.started (write_lock session pid),
        some (write_lock session pid)) ∧
      (write_lock session pid).pid = pid ∧
      (write_lock session pid).session_id = session.session_id ∧
      (write_lock session pid).start_wall_ms = session.start_wall_ms ∧
      (write_lock session pid).start_wall_iso = session.start_wall_iso) ∧
    (∀ existing, run_recorder_guard (some existing) pidRunning session pid =
      (StartOutcome.alreadyRunning, some existing)) ∧
    (∀ p pause, pidRunning p = false →
      print_status true (some p) pause pidRunning =
        (StatusReport.stoppedStaleCleared, false)) ∧
    (∀ p, pidRunning p = false →
      stop_recorder true (some p) pidRunning = ⟨false, false, true⟩) := by
  refine ⟨⟨rfl, rfl, rfl, rfl, rfl⟩, fun existing => rfl, ?_, ?_⟩
  · intro p pause h
    simp [print_status, h]
  · intro p h
    simp [stop_recorder, h]

/-- Witness for C9 (amended) at concrete inputs with a dead owner pid. -/
theorem C9_lock_amended_witness :
    run_recorder_guard none (fun _ => false) ⟨['s'], 5, ['i'], none⟩ 9 =
      (StartOutcome.started ⟨['s'], 9, 5, ['i']⟩, some ⟨['s'], 9, 5, ['i']⟩) ∧
    print_status true (some 4242) false (fun _ => false) =
      (StatusReport.stoppedStaleCleared, false) ∧
    stop_recorder true (some 4242) (fun _ => false) = ⟨false, false, true⟩ := by
  have h := C9_lock_amended ⟨['s'], 5, ['i'], none⟩ 9 (fun _ => false)
  exact ⟨h.1.1, h.2.2.1 4242 false rfl, h.2.2.2 4242 rfl⟩

/-- C10: `truncate_text` reports the character count of the input, flags
truncation exactly when that count exceeds `max_len`, returns the input
unchanged when it fits and its first `max_len` characters otherwise. -/
theorem C10_truncate_text_spec (s : List Char) (m : Nat) :
    (truncate_text s m).length = s.length ∧
    ((truncate_text s m).truncated = true ↔ m < s.length) ∧
    (s.length ≤ m → (truncate_text s m).text = s) ∧
    (m < s.length → (truncate_text s m).text = s.take m) := by
  unfold truncate_text
  by_cases h : s.length ≤ m
  · simp [h]
  · simp [h]
    exact Nat.lt_of_not_le h

/-- Under the composition claim's conditions a single keystroke performs
exactly the spec's step: the key arrives within the flush timeout (no stale
flush), is not Enter or Tab, and the appended text stays below the
max-length flush threshold. -/
theorem handle_text_key_no_flush (maxLen : Nat) (flushMs : Int)
    (buf : TextBuffer) (t : Int) (k : TextKey)
    (hgood : goodTextKey k)
    (hts : buf.text ≠ [] → t - buf.last_ts_ms < flushMs)
    (hlen : utf8Len (textKeyStep buf.text k) < maxLen) :
    handle_text_key maxLen flushMs buf t k =
      ({ text := textKeyStep buf.text k,
         last_ts_ms := if buf.text = [] ∧ k.vk = VK_BACK then buf.last_ts_ms else t },
        []) := by
  obtain ⟨hnr, hnt, hbt⟩ := hgood
  obtain ⟨vk, tr⟩ := k
  obtain ⟨btext, bts⟩ := buf
  simp only at hnr hnt hbt hts hlen ⊢
  by_cases he : btext = []
  · subst he
    by_cases hb : vk = VK_BACK
    · simp [handle_text_key, hb, textKeyStep]
    · rcases tr with _ | cs
      · simp at hbt
        exact absurd hbt hb
      · rcases cs with _ | ⟨c, cs⟩
        · simp at hbt
          exact absurd hbt hb
        · have hstep : textKeyStep [] ⟨vk, some (c :: cs)⟩ = c :: cs := by
            simp [textKeyStep, hb]
          have hmax : ¬ maxLen ≤ utf8Len (c :: cs) := by
            apply not_le.mpr
            rw [hstep] at hlen
            exact hlen
          simp [handle_text_key, hb, hnr, hnt, textKeyStep, hmax]
  · have hnost : ¬ flushMs ≤ t - bts := not_le.mpr (hts he)
    by_cases hb : vk = VK_BACK
    · simp [handle_text_key, hb, he, hnost, textKeyStep]
    · rcases tr with _ | cs
      · simp at hbt
        exact absurd hbt hb
      · rcases cs with _ | ⟨c, cs⟩
        · simp at hbt
          exact absurd hbt hb
        · have hstep : textKeyStep btext ⟨vk, some (c :: cs)⟩ = btext ++ c :: cs := by
            simp [textKeyStep, hb]
          have hmax : ¬ maxLen ≤ utf8Len (btext ++ c :: cs) := by
            apply not_le.mpr
            rw [hstep] at hlen
            exact hlen
          simp [handle_text_key, hb, he, hnost, hnr, hnt, textKeyStep, hmax]

/-- Under the composition claim's conditions, a keystroke sequence emits no
text event, composes exactly the spec's fold, and (when the result is
non-empty) leaves the buffer stamped with the last keystroke's time. -/
theorem runTextKeys_no_flush (maxLen : Nat) (flushMs : Int) :
    ∀ (keys : List (Int × TextKey)) (buf : TextBuffer),
      (∀ p ∈ keys, goodTextKey p.2) →
      List.Chain' (fun a b => b.1 - a.1 < flushMs) keys →
      (buf.text ≠ [] → ∀ hne : keys ≠ [], (keys.head hne).1 - buf.last_ts_ms < flushMs) →
      (∀ n, n ≤ keys.length →
        utf8Len (((keys.take n).map Prod.snd).foldl textKeyStep buf.text) < maxLen) →
      (runTextKeys maxLen flushMs buf keys).2 = [] ∧
      (runTextKeys maxLen flushMs buf keys).1.text =
        (keys.map Prod.snd).foldl textKeyStep buf.text ∧
      ((runTextKeys maxLen flushMs buf keys).1.text ≠ [] →
        (runTextKeys maxLen flushMs buf keys).1.last_ts_ms =
          (match keys.getLast? with
            | some p => p.1
            | none => buf.last_ts_ms)) := by
  intro keys
  induction keys with
  | nil =>
      intro buf _ _ _ _
      exact ⟨rfl, rfl, fun _ => rfl⟩
  | cons hd rest ih =>
      obtain ⟨t, k⟩ := hd
      intro buf hk hchain hts hlen
      have hgood : goodTextKey k := hk (t, k) (List.mem_cons_self _ _)
      have hts1 : buf.text ≠ [] → t - buf.last_ts_ms < flushMs := by
        intro h
        exact hts h (List.cons_ne_nil _ _)
      have hlen1 : utf8Len (textKeyStep buf.text k) < maxLen := by
        have h := hlen 1 (by simp)
        simpa using h
      have hstep := handle_text_key_no_flush maxLen flushMs buf t k hgood hts1 hlen1
      have hrun : runTextKeys maxLen flushMs buf ((t, k) :: rest) =
          ((runTextKeys maxLen flushMs (handle_text_key maxLen flushMs buf t k).1 rest).1,
            (handle_text_key maxLen flushMs buf t k).2 ++
              (runTextKeys maxLen flushMs (handle_text_key maxLen flushMs buf t k).1 rest).2) :=
        rfl
      set buf' : TextBuffer :=
        { text := textKeyStep buf.text k,
          last_ts_ms := if buf.text = [] ∧ k.vk = VK_BACK then buf.last_ts_ms else t }
        with hbuf'
      have hbufeq : (handle_text_key maxLen flushMs buf t k).1 = buf' := by rw [hstep]
      have heveq : (handle_text_key maxLen flushMs buf t k).2 = [] := by rw [hstep]
      have hk' : ∀ p ∈ rest, goodTextKey p.2 := fun p hp => hk p (List.mem_cons_of_mem _ hp)
      have hchain' : List.Chain' (fun a b => b.1 - a.1 < flushMs) rest := hchain.tail
      have hts' : buf'.text ≠ [] → ∀ hne : rest ≠ [],
          (rest.head hne).1 - buf'.last_ts_ms < flushMs := by
        intro hne' hr
        by_cases hcase : buf.text = [] ∧ k.vk = VK_BACK
        · exfalso
          apply hne'
          rw [hbuf']
          simp [textKeyStep, hcase.1, hcase.2]
        · have hts2 : buf'.last_ts_ms = t := by rw [hbuf']; simp [hcase]
          rw [hts2]
          rcases rest with _ | ⟨hd2, rest2⟩
          · exact absurd rfl hr
          · have := List.chain'_cons.mp hchain
            simpa using this.1
      have hlen' : ∀ n, n ≤ rest.length →
          utf8Len (((rest.take n).map Prod.snd).foldl textKeyStep buf'.text) < maxLen := by
        intro n hn
        have h := hlen (n + 1) (by simpa using Nat.succ_le_succ hn)
        simpa [hbuf'] using h
      obtain ⟨e1, e2, e3⟩ := ih buf' hk' hchain' hts' hlen'
      refine ⟨?_, ?_, ?_⟩
      · rw [hrun, heveq, hbufeq, e1]
        rfl
      · rw [hrun]
        simp only [hbufeq]
        rw [e2]
        simp [hbuf']
      · intro hne2
        rw [hrun] at hne2 ⊢
        simp only [hbufeq] at hne2 ⊢
        have := e3 hne2
        rcases hrest : rest with _ | ⟨hd2, rest2⟩
        · rw [hrest] at this e2
          have htext : (runTextKeys maxLen flushMs buf' []).1.text = buf'.text := rfl
          rw [hrest] at hne2
          have hnebuf : buf'.text ≠ [] := by
            rw [← htext]
            exact hne2
          have hts3 : buf'.last_ts_ms = t := by
            by_cases hcase : buf.text = [] ∧ k.vk = VK_BACK
            · exfalso
              apply hnebuf
              rw [hbuf']
              simp [textKeyStep, hcase.1, hcase.2]
            · rw [hbuf']; simp [hcase]
          rw [this]
          simpa using hts3
        · rw [hrest] at this
          rw [this]
          rfl

/-- C2 (counterexample): with the minimum configurable max text length (16)
a sequence of 17 translated keystrokes, Enter/Tab-free and within the flush
timeout, produces two text events (a `max_len` flush of 16 characters and
an idle flush of the remainder), not one event carrying the 17-character
concatenation. -/
theorem C2_counterexample :
    (runTextKeys 16 1500 ⟨[], 0⟩
        ((List.range 17).map (fun i => ((i : Int), ⟨65, some ['a']⟩)))).2 ++
      (flush_text_buffer_if_stale 1500
        (runTextKeys 16 1500 ⟨[], 0⟩
          ((List.range 17).map (fun i => ((i : Int), ⟨65, some ['a']⟩)))).1 2000).2 =
      [⟨List.replicate 16 'a', .max_len⟩, ⟨['a'], .idle_timeout⟩] ∧
    composeKeys (((List.range 17).map
        (fun i => ((i : Int), (⟨65, some ['a']⟩ : TextKey)))).map Prod.snd) =
      List.replicate 17 'a' := by
  refine ⟨by decide, by decide⟩

/-- C2 (amended): for every sequence of permitted keystrokes — each a
Backspace or translating to at least one character, none Enter or Tab —
with consecutive keystrokes less than the flush timeout apart and the
composed text of every prefix staying below the maximum text length, no
text event is emitted while typing, and once past the idle timeout the
stale flush emits exactly one text event whose content is the in-order
concatenation of the translated characters with each Backspace removing
the most recently appended character. -/
theorem C2_text_composition_amended (maxLen : Nat) (flushMs : Int)
    (keys : List (Int × TextKey)) (T : Int)
    (hkeys : ∀ p ∈ keys, goodTextKey p.2)
    (hchain : List.Chain' (fun a b => b.1 - a.1 < flushMs) keys)
    (hlen : ∀ n, n ≤ keys.length →
      utf8Len (composeKeys ((keys.take n).map Prod.snd)) < maxLen)
    (hT : ∀ p ∈ keys, flushMs ≤ T - p.1)
    (hne : composeKeys (keys.map Prod.snd) ≠ []) :
    (runTextKeys maxLen flushMs ⟨[], 0⟩ keys).2 = [] ∧
    flush_text_buffer_if_stale flushMs (runTextKeys maxLen flushMs ⟨[], 0⟩ keys).1 T =
      (⟨[], T⟩, [⟨composeKeys (keys.map Prod.snd), .idle_timeout⟩]) := by
  obtain ⟨e1, e2, e3⟩ := runTextKeys_no_flush maxLen flushMs keys ⟨[], 0⟩ hkeys hchain
    (by intro h; exact absurd rfl h) (by intro n hn; exact hlen n hn)
  refine ⟨e1, ?_⟩
  have htext : (runTextKeys maxLen flushMs ⟨[], 0⟩ keys).1.text =
      composeKeys (keys.map Prod.snd) := e2
  have hnetext : (runTextKeys maxLen flushMs ⟨[], 0⟩ keys).1.text ≠ [] := by
    rw [htext]; exact hne
  have hkeysne : keys ≠ [] := by
    intro h
    apply hne
    rw [h]
    rfl
  obtain ⟨p, hp⟩ : ∃ p, keys.getLast? = some p := by
    rcases hg : keys.getLast? with _ | p
    · exact absurd (List.getLast?_eq_none_iff.mp hg) hkeysne
    · exact ⟨p, rfl⟩
  have hts : (runTextKeys maxLen flushMs ⟨[], 0⟩ keys).1.last_ts_ms = p.1 := by
    have := e3 hnetext
    rw [hp] at this
    exact this
  have hpmem : p ∈ keys := by
    obtain ⟨h', heq⟩ :=
      List.mem_getLast?_eq_getLast (show p ∈ keys.getLast? from hp)
    rw [heq]
    exact List.getLast_mem h'
  have hTp : flushMs ≤ T - p.1 := hT p hpmem
  unfold flush_text_buffer_if_stale
  rw [if_pos ⟨hnetext, by rw [hts]; exact hTp⟩]
  unfold flush_text_buffer_with_window
  rw [if_neg hnetext, htext]

/-- Witness for C2 (amended): scenario 1 — type a, b, Backspace, c, then
wait past the idle timeout: exactly one text event, content "ac". -/
theorem C2_text_composition_amended_witness :
    (runTextKeys 2000 1500 ⟨[], 0⟩
        [(0, ⟨65, some ['a']⟩), (1, ⟨66, some ['b']⟩),
          (2, ⟨8, none⟩), (3, ⟨67, some ['c']⟩)]).2 = [] ∧
    flush_text_buffer_if_stale 1500
        (runTextKeys 2000 1500 ⟨[], 0⟩
          [(0, ⟨65, some ['a']⟩), (1, ⟨66, some ['b']⟩),
            (2, ⟨8, none⟩), (3, ⟨67, some ['c']⟩)]).1 2000 =
      (⟨[], 2000⟩, [⟨['a', 'c'], .idle_timeout⟩]) := by
  have h := C2_text_composition_amended 2000 1500
    [(0, ⟨65, some ['a']⟩), (1, ⟨66, some ['b']⟩), (2, ⟨8, none⟩), (3, ⟨67, some ['c']⟩)]
    2000 (by decide) (by norm_num [List.chain'_cons]) (by decide) (by decide) (by decide)
  refine ⟨h.1, ?_⟩
  rw [h.2]
  decide

/-- A rectangle-only change of the tracked window (re)arms the debounce
with the new rectangle. -/
theorem update_same_window (d : Int) (tr : WindowTracker) (now h : Int)
    (info : WindowInfo) (hh : tr.last_hwnd = h) (hr : info.rect ≠ tr.last_rect)
    (hd : 0 < d) :
    update_window_events d tr now h info =
      (⟨h, info.rect, some ⟨h, info, now⟩⟩, []) := by
  have hnew : ¬(h ≠ tr.last_hwnd) := fun hcon => hcon hh.symm
  have hdle : ¬ d ≤ 0 := not_le.mpr hd
  simp [update_window_events, hnew, hr, hdle]

/-- A foreground change drops any pending rectangle and emits the
active-window event. -/
theorem update_new_window (d : Int) (tr : WindowTracker) (now h : Int)
    (info : WindowInfo) (hh : h ≠ tr.last_hwnd) :
    update_window_events d tr now h info =
      (⟨h, info.rect, none⟩, [WindowEvent.active_window_changed h info now]) := by
  simp [update_window_events, hh]

/-- A flusher iteration before the debounce interval has elapsed does
nothing. -/
theorem check_early (d : Int) (tr : WindowTracker) (now : Int) (p : PendingRect)
    (hp : tr.pending_rect = some p) (hearly : now - p.last_change_ms < d) :
    rectFlushStep d tr now = (tr, []) := by
  unfold rectFlushStep
  rw [hp]
  simp [hearly]

/-- A flusher iteration with no pending rectangle does nothing. -/
theorem check_none (d : Int) (tr : WindowTracker) (now : Int)
    (hp : tr.pending_rect = none) : rectFlushStep d tr now = (tr, []) := by
  unfold rectFlushStep
  rw [hp]

/-- A flusher iteration past the debounce interval, with the window still
in the foreground, emits the pending rectangle. -/
theorem check_fire (d : Int) (tr : WindowTracker) (now : Int) (p : PendingRect)
    (hp : tr.pending_rect = some p) (hq : d ≤ now - p.last_change_ms)
    (hsame : tr.last_hwnd = p.hwnd) :
    rectFlushStep d tr now =
      ({ tr with pending_rect := none },
        [WindowEvent.window_rect_changed p.window_info now]) := by
  unfold rectFlushStep
  rw [hp]
  have h1 : ¬ now - p.last_change_ms < d := not_lt.mpr hq
  have h2 : ¬ tr.last_hwnd ≠ p.hwnd := fun hcon => hcon hsame
  simp [h1, h2]

theorem runWindowSteps_append (d : Int) :
    ∀ (l1 l2 : List WStep) (tr : WindowTracker),
      runWindowSteps d tr (l1 ++ l2) =
        ((runWindowSteps d (runWindowSteps d tr l1).1 l2).1,
          (runWindowSteps d tr l1).2 ++
            (runWindowSteps d (runWindowSteps d tr l1).1 l2).2) := by
  intro l1
  induction l1 with
  | nil => intro l2 tr; simp [runWindowSteps]
  | cons s l1 ih =>
      intro l2 tr
      cases s with
      | change now hwnd info =>
          show runWindowSteps d tr (WStep.change now hwnd info :: (l1 ++ l2)) = _
          have hunf1 : runWindowSteps d tr (WStep.change now hwnd info :: (l1 ++ l2)) =
              ((runWindowSteps d (update_window_events d tr now hwnd info).1 (l1 ++ l2)).1,
                (update_window_events d tr now hwnd info).2 ++
                  (runWindowSteps d (update_window_events d tr now hwnd info).1
                    (l1 ++ l2)).2) := rfl
          have hunf2 : runWindowSteps d tr (WStep.change now hwnd info :: l1) =
              ((runWindowSteps d (update_window_events d tr now hwnd info).1 l1).1,
                (update_window_events d tr now hwnd info).2 ++
                  (runWindowSteps d (update_window_events d tr now hwnd info).1 l1).2) := rfl
          rw [hunf1, hunf2, ih]
          simp [List.append_assoc]
      | check now =>
          show runWindowSteps d tr (WStep.check now :: (l1 ++ l2)) = _
          have hunf1 : runWindowSteps d tr (WStep.check now :: (l1 ++ l2)) =
              ((runWindowSteps d (rectFlushStep d tr now).1 (l1 ++ l2)).1,
                (rectFlushStep d tr now).2 ++
                  (runWindowSteps d (rectFlushStep d tr now).1 (l1 ++ l2)).2) := rfl
          have hunf2 : runWindowSteps d tr (WStep.check now :: l1) =
              ((runWindowSteps d (rectFlushStep d tr now).1 l1).1,
                (rectFlushStep d tr now).2 ++
                  (runWindowSteps d (rectFlushStep d tr now).1 l1).2) := rfl
          rw [hunf1, hunf2, ih]
          simp [List.append_assoc]

/-- Flusher checks within the debounce window of the pending change leave
the tracker untouched and emit nothing. -/
theorem runChecks_early :
    ∀ (us : List Int) (d : Int) (tr : WindowTracker) (p : PendingRect),
      tr.pending_rect = some p →
      (∀ u ∈ us, u - p.last_change_ms < d) →
      runWindowSteps d tr (us.map WStep.check) = (tr, []) := by
  intro us
  induction us with
  | nil => intro d tr p _ _; rfl
  | cons u us ih =>
      intro d tr p hp hus
      rw [List.map_cons]
      have hstep : rectFlushStep d tr u = (tr, []) :=
        check_early d tr u p hp (hus u (List.mem_cons_self _ _))
      have hunf : runWindowSteps d tr (WStep.check u :: us.map WStep.check) =
          ((runWindowSteps d (rectFlushStep d tr u).1 (us.map WStep.check)).1,
            (rectFlushStep d tr u).2 ++
              (runWindowSteps d (rectFlushStep d tr u).1 (us.map WStep.check)).2) := rfl
      rw [hunf, hstep]
      have hrest := ih d tr p hp (fun v hv => hus v (List.mem_cons_of_mem _ hv))
      simp only [hrest]
      rfl

/-- Flusher checks with no pending rectangle leave everything untouched. -/
theorem runChecks_nopending :
    ∀ (us : List Int) (d : Int) (tr : WindowTracker),
      tr.pending_rect = none →
      runWindowSteps d tr (us.map WStep.check) = (tr, []) := by
  intro us
  induction us with
  | nil => intro d tr _; rfl
  | cons u us ih =>
      intro d tr hp
      rw [List.map_cons]
      have hstep : rectFlushStep d tr u = (tr, []) := check_none d tr u hp
      have hunf : runWindowSteps d tr (WStep.check u :: us.map WStep.check) =
          ((runWindowSteps d (rectFlushStep d tr u).1 (us.map WStep.check)).1,
            (rectFlushStep d tr u).2 ++
              (runWindowSteps d (rectFlushStep d tr u).1 (us.map WStep.check)).2) := rfl
      rw [hunf, hstep]
      have hrest := ih d tr hp
      simp only [hrest]
      rfl

/-- A burst of rectangle changes of the tracked window, each with only
early flusher checks after it, emits nothing and leaves the final
rectangle pending. -/
theorem runWindowSegs :
    ∀ (segs : List (Int × WindowInfo × List Int)) (h : Int)
      (r : Option RectInfo) (p : Option PendingRect) (d : Int),
      0 < d → segsOk d segs → segsRectsChange r segs →
      runWindowSteps d ⟨h, r, p⟩ (flattenSegs h segs) =
        (match segs.getLast? with
          | some s => (⟨h, s.2.1.rect, some ⟨h, s.2.1, s.1⟩⟩, [])
          | none => (⟨h, r, p⟩, [])) := by
  intro segs
  induction segs with
  | nil => intro h r p d _ _ _; rfl
  | cons s rest ih =>
      obtain ⟨t, info, us⟩ := s
      intro h r p d hd hok hrc
      obtain ⟨hus, hok'⟩ := hok
      obtain ⟨hrect, hrc'⟩ := hrc
      have hflat : flattenSegs h ((t, info, us) :: rest) =
          (WStep.change t h info :: us.map WStep.check) ++ flattenSegs h rest := by
        simp [flattenSegs]
      have hchg := update_same_window d ⟨h, r, p⟩ t h info rfl hrect hd
      have hchecks := runChecks_early us d ⟨h, info.rect, some ⟨h, info, t⟩⟩
        ⟨h, info, t⟩ rfl hus
      have hseg1 : runWindowSteps d ⟨h, r, p⟩
          (WStep.change t h info :: us.map WStep.check) =
          (⟨h, info.rect, some ⟨h, info, t⟩⟩, []) := by
        have hunf : runWindowSteps d (⟨h, r, p⟩ : WindowTracker)
            (WStep.change t h info :: us.map WStep.check) =
            ((runWindowSteps d (update_window_events d ⟨h, r, p⟩ t h info).1
                (us.map WStep.check)).1,
              (update_window_events d ⟨h, r, p⟩ t h info).2 ++
                (runWindowSteps d (update_window_events d ⟨h, r, p⟩ t h info).1
                  (us.map WStep.check)).2) := rfl
        rw [hunf, hchg]
        simp only [hchecks]
        rfl
      rw [hflat, runWindowSteps_append, hseg1]
      have hrest := ih h info.rect (some ⟨h, info, t⟩) d hd hok' hrc'
      simp only [hrest]
      rcases rest with _ | ⟨s2, rest2⟩
      · rfl
      · rcases hgl : (s2 :: rest2).getLast? with _ | sl
        · exact absurd (List.getLast?_eq_none_iff.mp hgl) (List.cons_ne_nil _ _)
        · rw [List.getLast?_cons_cons, hgl]
          simp

/-- C6: a rectangle change of the foreground window followed by N further
changes, the flusher checking only within the debounce interval of the
latest change, emits exactly one `window_rect_changed` event — for the
final rectangle, at the first flusher check after the window has been idle
for the debounce interval; and if the foreground window changes before the
debounce elapses, no rectangle event for the superseded window is ever
emitted. -/
theorem C6_window_rect_debounce (d h : Int) (r : Option RectInfo)
    (segs : List (Int × WindowInfo × List Int))
    (sLast : Int × WindowInfo × List Int) (uF : Int)
    (hd : 0 < d) (hok : segsOk d segs) (hrc : segsRectsChange r segs)
    (hlast : segs.getLast? = some sLast)
    (hfire : d ≤ uF - sLast.1) :
    (runWindowSteps d ⟨h, r, none⟩
        (flattenSegs h segs ++ [WStep.check uF])).2 =
      [WindowEvent.window_rect_changed sLast.2.1 uF] ∧
    (∀ (h2 tFoc : Int) (info2 : WindowInfo) (checks : List Int),
      h2 ≠ h →
      rectEvents (runWindowSteps d ⟨h, r, none⟩
        (flattenSegs h segs ++
          WStep.change tFoc h2 info2 :: checks.map WStep.check)).2 = []) := by
  have hsegs := runWindowSegs segs h r none d hd hok hrc
  have hsegs' : runWindowSteps d ⟨h, r, none⟩ (flattenSegs h segs) =
      (⟨h, sLast.2.1.rect, some ⟨h, sLast.2.1, sLast.1⟩⟩, []) := by
    rw [hsegs, hlast]
  constructor
  · rw [runWindowSteps_append, hsegs']
    have hfireStep := check_fire d ⟨h, sLast.2.1.rect, some ⟨h, sLast.2.1, sLast.1⟩⟩
      uF ⟨h, sLast.2.1, sLast.1⟩ rfl hfire rfl
    have hunf : runWindowSteps d
        (⟨h, sLast.2.1.rect, some ⟨h, sLast.2.1, sLast.1⟩⟩ : WindowTracker)
        [WStep.check uF] =
        ((rectFlushStep d ⟨h, sLast.2.1.rect, some ⟨h, sLast.2.1, sLast.1⟩⟩ uF).1,
          (rectFlushStep d ⟨h, sLast.2.1.rect, some ⟨h, sLast.2.1, sLast.1⟩⟩ uF).2 ++
            []) := rfl
    rw [hunf, hfireStep]
    simp
  · intro h2 tFoc info2 checks hne
    rw [runWindowSteps_append, hsegs']
    have hchg := update_new_window d
      ⟨h, sLast.2.1.rect, some ⟨h, sLast.2.1, sLast.1⟩⟩ tFoc h2 info2 hne
    have hchecks := runChecks_nopending checks d ⟨h2, info2.rect, none⟩ rfl
    have hunf : runWindowSteps d
        (⟨h, sLast.2.1.rect, some ⟨h, sLast.2.1, sLast.1⟩⟩ : WindowTracker)
        (WStep.change tFoc h2 info2 :: checks.map WStep.check) =
        ((runWindowSteps d
            (update_window_events d ⟨h, sLast.2.1.rect, some ⟨h, sLast.2.1, sLast.1⟩⟩
              tFoc h2 info2).1 (checks.map WStep.check)).1,
          (update_window_events d ⟨h, sLast.2.1.rect, some ⟨h, sLast.2.1, sLast.1⟩⟩
              tFoc h2 info2).2 ++
            (runWindowSteps d
              (update_window_events d ⟨h, sLast.2.1.rect, some ⟨h, sLast.2.1, sLast.1⟩⟩
                tFoc h2 info2).1 (checks.map WStep.check)).2) := rfl
    rw [hunf, hchg]
    simp [hchecks, rectEvents]

/-- Witness for C6 at a concrete burst: two rectangle changes 200 ms apart
under a 300 ms debounce, early checks at 100 and 399, firing check at 600;
and a focus change at 250 suppressing the pending rectangle. -/
theorem C6_window_rect_debounce_witness :
    (runWindowSteps 300 ⟨1, none, none⟩
        (flattenSegs 1 [(0, ⟨some ⟨0, 0, 10, 10, 10, 10⟩⟩, [100]),
            (200, ⟨some ⟨0, 0, 20, 20, 20, 20⟩⟩, [399])] ++
          [WStep.check 600])).2 =
      [WindowEvent.window_rect_changed ⟨some ⟨0, 0, 20, 20, 20, 20⟩⟩ 600] ∧
    rectEvents (runWindowSteps 300 ⟨1, none, none⟩
        (flattenSegs 1 [(0, ⟨some ⟨0, 0, 10, 10, 10, 10⟩⟩, [100]),
            (200, ⟨some ⟨0, 0, 20, 20, 20, 20⟩⟩, [399])] ++
          WStep.change 250 2 ⟨some ⟨1, 1, 2, 2, 1, 1⟩⟩ ::
            ([] : List Int).map WStep.check)).2 = [] := by
  have h := C6_window_rect_debounce 300 1 none
    [(0, ⟨some ⟨0, 0, 10, 10, 10, 10⟩⟩, [100]),
      (200, ⟨some ⟨0, 0, 20, 20, 20, 20⟩⟩, [399])]
    (200, ⟨some ⟨0, 0, 20, 20, 20, 20⟩⟩, [399]) 600 (by norm_num)
    (by simp [segsOk]) (by simp [segsRectsChange])
    (by decide) (by decide)
  exact ⟨h.1, h.2 2 250 ⟨some ⟨1, 1, 2, 2, 1, 1⟩⟩ [] (by decide)⟩

theorem scrollFold_total_delta :
    ∀ (ticks : List (Int × Int × Int × Int)) (b : ScrollBuffer),
      (scrollFold b ticks).total_delta =
        b.total_delta + (ticks.map fun p => p.2.2.2).sum := by
  intro ticks
  induction ticks with
  | nil => intro b; simp [scrollFold]
  | cons hd rest ih =>
      intro b
      obtain ⟨t, x, y, d⟩ := hd
      rw [show scrollFold b ((t, x, y, d) :: rest) =
        scrollFold ⟨t, x, y, b.total_delta + d, b.ticks + 1⟩ rest from rfl, ih]
      simp
      ring

theorem scrollFold_ticks :
    ∀ (ticks : List (Int × Int × Int × Int)) (b : ScrollBuffer),
      (scrollFold b ticks).ticks = b.ticks + ticks.length := by
  intro ticks
  induction ticks with
  | nil => intro b; simp [scrollFold]
  | cons hd rest ih =>
      intro b
      obtain ⟨t, x, y, d⟩ := hd
      rw [show scrollFold b ((t, x, y, d) :: rest) =
        scrollFold ⟨t, x, y, b.total_delta + d, b.ticks + 1⟩ rest from rfl, ih]
      simp
      ring

/-- Joining ticks whole within the gap: the run emits nothing and the
buffer is exactly the fold of the ticks. -/
theorem runScrollTicks_agg :
    ∀ (ticks : List (Int × Int × Int × Int)) (b : ScrollBuffer),
      List.Chain' (fun a c => c.1 - a.1 ≤ 200) ticks →
      (∀ hne : ticks ≠ [], (ticks.head hne).1 - b.last_ts_ms ≤ 200) →
      runScrollTicks (some b) ticks = (some (scrollFold b ticks), []) := by
  intro ticks
  induction ticks with
  | nil => intro b _ _; rfl
  | cons hd rest ih =>
      obtain ⟨t, x, y, d⟩ := hd
      intro b hchain hfirst
      have hjoin : t - b.last_ts_ms ≤ 200 := by simpa using hfirst (by simp)
      have hstep : buffer_mouse_scroll (some b) t x y d =
          (some ⟨t, x, y, b.total_delta + d, b.ticks + 1⟩, []) := by
        simp [buffer_mouse_scroll, hjoin]
      have hrest := ih ⟨t, x, y, b.total_delta + d, b.ticks + 1⟩ hchain.tail (by
        intro hne
        rcases rest with _ | ⟨hd2, rest2⟩
        · exact absurd rfl hne
        · have := List.chain'_cons.mp hchain
          simpa using this.1)
      have hunf : runScrollTicks (some b) ((t, x, y, d) :: rest) =
          ((runScrollTicks (buffer_mouse_scroll (some b) t x y d).1 rest).1,
            (buffer_mouse_scroll (some b) t x y d).2 ++
              (runScrollTicks (buffer_mouse_scroll (some b) t x y d).1 rest).2) := rfl
      rw [hunf, hstep]
      simp only [hrest]
      rfl

/-- C5: wheel ticks each within the 200 ms aggregation gap of the previous
produce no events while aggregating; the resulting aggregate's total delta
is the sum of the ticks' deltas and its tick count the number of ticks; the
background flusher emits exactly one `mouse_scroll` event for the quiet
aggregate; and a tick arriving after a gap larger than the threshold
flushes the previous aggregate and starts a fresh one. -/
theorem C5_scroll_aggregation (t x y d : Int)
    (rest : List (Int × Int × Int × Int)) (now : Int)
    (hchain : List.Chain' (fun a c => c.1 - a.1 ≤ 200) ((t, x, y, d) :: rest))
    (hquiet : 200 < now - (scrollFold ⟨t, x, y, d, 1⟩ rest).last_ts_ms) :
    runScrollTicks none ((t, x, y, d) :: rest) =
      (some (scrollFold ⟨t, x, y, d, 1⟩ rest), []) ∧
    (scrollFold ⟨t, x, y, d, 1⟩ rest).total_delta =
      d + (rest.map fun p => p.2.2.2).sum ∧
    (scrollFold ⟨t, x, y, d, 1⟩ rest).ticks = 1 + rest.length ∧
    scrollFlushStep (some (scrollFold ⟨t, x, y, d, 1⟩ rest)) now =
      (none, [{ ts_mono_ms := (scrollFold ⟨t, x, y, d, 1⟩ rest).last_ts_ms,
                x := (scrollFold ⟨t, x, y, d, 1⟩ rest).x,
                y := (scrollFold ⟨t, x, y, d, 1⟩ rest).y,
                total_delta := d + (rest.map fun p => p.2.2.2).sum,
                ticks := 1 + rest.length }]) ∧
    (∀ (b : ScrollBuffer) (t2 x2 y2 d2 : Int), 200 < t2 - b.last_ts_ms →
      buffer_mouse_scroll (some b) t2 x2 y2 d2 =
        (some ⟨t2, x2, y2, d2, 1⟩,
          [⟨b.last_ts_ms, b.x, b.y, b.total_delta, b.ticks⟩])) := by
  have htotal := scrollFold_total_delta rest ⟨t, x, y, d, 1⟩
  have hticks := scrollFold_ticks rest ⟨t, x, y, d, 1⟩
  refine ⟨?_, by simpa using htotal, by simpa using hticks, ?_, ?_⟩
  · have hstep : buffer_mouse_scroll none t x y d = (some ⟨t, x, y, d, 1⟩, []) := rfl
    have hrest := runScrollTicks_agg rest ⟨t, x, y, d, 1⟩ hchain.tail (by
      intro hne
      rcases rest with _ | ⟨hd2, rest2⟩
      · exact absurd rfl hne
      · have := List.chain'_cons.mp hchain
        simpa using this.1)
    have hunf : runScrollTicks none ((t, x, y, d) :: rest) =
        ((runScrollTicks (buffer_mouse_scroll none t x y d).1 rest).1,
          (buffer_mouse_scroll none t x y d).2 ++
            (runScrollTicks (buffer_mouse_scroll none t x y d).1 rest).2) := rfl
    rw [hunf, hstep]
    simp only [hrest]
    rfl
  · have hflush : scrollFlushStep (some (scrollFold ⟨t, x, y, d, 1⟩ rest)) now =
        flush_scroll_buffer (some (scrollFold ⟨t, x, y, d, 1⟩ rest)) := by
      show (if 200 < now - (scrollFold ⟨t, x, y, d, 1⟩ rest).last_ts_ms then
          flush_scroll_buffer (some (scrollFold ⟨t, x, y, d, 1⟩ rest))
        else (some (scrollFold ⟨t, x, y, d, 1⟩ rest), [])) = _
      rw [if_pos hquiet]
    have hfl : flush_scroll_buffer (some (scrollFold ⟨t, x, y, d, 1⟩ rest)) =
        (none, [{ ts_mono_ms := (scrollFold ⟨t, x, y, d, 1⟩ rest).last_ts_ms,
                  x := (scrollFold ⟨t, x, y, d, 1⟩ rest).x,
                  y := (scrollFold ⟨t, x, y, d, 1⟩ rest).y,
                  total_delta := (scrollFold ⟨t, x, y, d, 1⟩ rest).total_delta,
                  ticks := (scrollFold ⟨t, x, y, d, 1⟩ rest).ticks }]) := rfl
    have ht' : (scrollFold ⟨t, x, y, d, 1⟩ rest).total_delta =
        d + (rest.map fun p => p.2.2.2).sum := by simpa using htotal
    have hk' : (scrollFold ⟨t, x, y, d, 1⟩ rest).ticks = 1 + rest.length := by
      simpa using hticks
    rw [hflush, hfl, ht', hk']
  · intro b t2 x2 y2 d2 hgap
    have hnle : ¬ t2 - b.last_ts_ms ≤ 200 := not_le.mpr hgap
    simp [buffer_mouse_scroll, flush_scroll_buffer, hnle]

/-- Witness for C5 at a concrete tick sequence. -/
theorem C5_scroll_aggregation_witness :
    runScrollTicks none [(0, 5, 6, 120), (100, 7, 8, -120), (250, 9, 10, 120)] =
      (some ⟨250, 9, 10, 120, 3⟩, []) ∧
    scrollFlushStep (some ⟨250, 9, 10, 120, 3⟩) 500 =
      (none, [⟨250, 9, 10, 120, 3⟩]) := by
  have h := C5_scroll_aggregation 0 5 6 120 [(100, 7, 8, -120), (250, 9, 10, 120)] 500
    (by norm_num [List.chain'_cons]) (by decide)
  constructor
  · rw [h.1]
    decide
  · have h4 := h.2.2.2.1
    rw [show (some (⟨250, 9, 10, 120, 3⟩ : ScrollBuffer)) =
      some (scrollFold ⟨0, 5, 6, 120, 1⟩ [(100, 7, 8, -120), (250, 9, 10, 120)]) from
      by decide, h4]
    decide

/-- A non-skipping dedupe decision stores the new hash and timestamp. -/
theorem should_skip_clipboard_hash_false (w : Int) (last : Option ClipboardHash)
    (h : Nat) (now : Int) (l : Option ClipboardHash)
    (heq : should_skip_clipboard_hash w last h now = (false, l)) :
    l = some ⟨h, now⟩ := by
  rcases last with _ | lh
  · injection heq with h1 h2
    exact h2.symm
  · have hiff : should_skip_clipboard_hash w (some lh) h now =
        if lh.hash = h ∧ now - lh.ts_ms ≤ w then (true, some lh)
        else (false, some ⟨h, now⟩) := rfl
    rw [hiff] at heq
    by_cases hc : lh.hash = h ∧ now - lh.ts_ms ≤ w
    · rw [if_pos hc] at heq
      exact absurd heq (by simp)
    · rw [if_neg hc] at heq
      injection heq with h1 h2
      exact h2.symm

/-- C3 (counterexample): two settled clipboard changes carrying the same
text, 500 ms apart under a 2000 ms dedupe window, both emit a
clipboard-text event — the text path of `read_clipboard_event_locked` never
consults the content hash, so the second change is not suppressed as the
claim requires. -/
theorem C3_counterexample :
    (500 : Int) - 0 ≤ 2000 ∧
    read_clipboard_event_locked 2000 2000 none ⟨none, none, some ['h', 'i']⟩ 0 =
      (some (.text ⟨['h', 'i'], 2, false⟩ 0), none) ∧
    read_clipboard_event_locked 2000 2000
        (read_clipboard_event_locked 2000 2000 none ⟨none, none, some ['h', 'i']⟩ 0).2
        ⟨none, none, some ['h', 'i']⟩ 500 =
      (some (.text ⟨['h', 'i'], 2, false⟩ 500), none) := by
  refine ⟨by decide, by decide, by decide⟩

/-- C3 (amended): the hash dedupe applies to image clipboard content — a
second settled change with the same image bytes, within the dedupe window
of an emitted image event, emits nothing and leaves the stored hash
unchanged; text changes never consult the hash, so each settled
identical-text change emits its own clipboard-text event. -/
theorem C3_clipboard_dedupe_amended :
    (∀ (maxLen : Nat) (window : Int) (last : Option ClipboardHash)
        (img : ClipImage) (fs1 fs2 : Option (List (List Char)))
        (tx1 tx2 : Option (List Char)) (t1 t2 : Int) (ev1 : ClipEvent),
      (read_clipboard_event_locked maxLen window last ⟨some img, fs1, tx1⟩ t1).1 =
          some ev1 →
      t2 - t1 ≤ window →
      (read_clipboard_event_locked maxLen window
          (read_clipboard_event_locked maxLen window last ⟨some img, fs1, tx1⟩ t1).2
          ⟨some img, fs2, tx2⟩ t2).1 = none) ∧
    (∀ (maxLen : Nat) (window : Int) (last : Option ClipboardHash)
        (t : List Char) (now : Int),
      read_clipboard_event_locked maxLen window last ⟨none, none, some t⟩ now =
        (some (.text (truncate_text t maxLen) now), last)) := by
  constructor
  · intro maxLen window last img fs1 fs2 tx1 tx2 t1 t2 ev1 h1 hw
    have hred : read_clipboard_event_locked maxLen window last ⟨some img, fs1, tx1⟩ t1 =
        match should_skip_clipboard_hash window last (hash_bytes img.bytes) t1 with
        | (true, last') => (none, last')
        | (false, last') => (some (.image img.width img.height t1), last') := rfl
    rcases hsk : should_skip_clipboard_hash window last (hash_bytes img.bytes) t1 with
      ⟨skip, last'⟩
    cases skip
    · have h2 : (read_clipboard_event_locked maxLen window last ⟨some img, fs1, tx1⟩ t1).2 =
          last' := by rw [hred, hsk]
      have hup : last' = some ⟨hash_bytes img.bytes, t1⟩ :=
        should_skip_clipboard_hash_false window last (hash_bytes img.bytes) t1 last' hsk
      rw [h2, hup]
      have hskip2 : should_skip_clipboard_hash window (some ⟨hash_bytes img.bytes, t1⟩)
          (hash_bytes img.bytes) t2 = (true, some ⟨hash_bytes img.bytes, t1⟩) := by
        have hiff : should_skip_clipboard_hash window (some ⟨hash_bytes img.bytes, t1⟩)
            (hash_bytes img.bytes) t2 =
            if (⟨hash_bytes img.bytes, t1⟩ : ClipboardHash).hash = hash_bytes img.bytes ∧
                t2 - (⟨hash_bytes img.bytes, t1⟩ : ClipboardHash).ts_ms ≤ window then
              (true, some ⟨hash_bytes img.bytes, t1⟩)
            else (false, some ⟨hash_bytes img.bytes, t2⟩) := rfl
        rw [hiff, if_pos ⟨rfl, hw⟩]
      show (match should_skip_clipboard_hash window (some ⟨hash_bytes img.bytes, t1⟩)
          (hash_bytes img.bytes) t2 with
        | (true, last') => ((none : Option ClipEvent), last')
        | (false, last') => (some (.image img.width img.height t2), last')).1 = none
      rw [hskip2]
    · rw [hred, hsk] at h1
      simp at h1
  · intro maxLen window last t now
    rfl

/-- Witness for C3 (amended): a repeated empty-bytes image 500 ms apart is
suppressed; a text change emits its truncated text. -/
theorem C3_clipboard_dedupe_amended_witness :
    (read_clipboard_event_locked 2000 2000
        (read_clipboard_event_locked 2000 2000 none ⟨some ⟨[], 4, 4⟩, none, none⟩ 0).2
        ⟨some ⟨[], 4, 4⟩, none, none⟩ 500).1 = none ∧
    read_clipboard_event_locked 2000 2000 none ⟨none, none, some ['h', 'i']⟩ 0 =
      (some (.text (truncate_text ['h', 'i'] 2000) 0), none) := by
  exact ⟨C3_clipboard_dedupe_amended.1 2000 2000 none ⟨[], 4, 4⟩ none none none none
      0 500 (.image 4 4 0) rfl (by decide),
    C3_clipboard_dedupe_amended.2 2000 2000 none ['h', 'i'] 0⟩

theorem createTableIfNotExists_sessionRows (t : TableName) (db : DbState) :
    (createTableIfNotExists t db).sessionRows = db.sessionRows := by
  unfold createTableIfNotExists; split <;> rfl

theorem createTableIfNotExists_eventRows (t : TableName) (db : DbState) :
    (createTableIfNotExists t db).eventRows = db.eventRows := by
  unfold createTableIfNotExists; split <;> rfl

theorem createTableIfNotExists_indexes (t : TableName) (db : DbState) :
    (createTableIfNotExists t db).indexes = db.indexes := by
  unfold createTableIfNotExists; split <;> rfl

theorem createIndexIfNotExists_sessionRows (i : IndexName) (db : DbState) :
    (createIndexIfNotExists i db).sessionRows = db.sessionRows := by
  unfold createIndexIfNotExists; split <;> rfl

theorem createIndexIfNotExists_eventRows (i : IndexName) (db : DbState) :
    (createIndexIfNotExists i db).eventRows = db.eventRows := by
  unfold createIndexIfNotExists; split <;> rfl

theorem createIndexIfNotExists_tables (i : IndexName) (db : DbState) :
    (createIndexIfNotExists i db).tables = db.tables := by
  unfold createIndexIfNotExists; split <;> rfl

theorem createTableIfNotExists_noop (t : TableName) (db : DbState)
    (h : t ∈ db.tables) : createTableIfNotExists t db = db := by
  unfold createTableIfNotExists; exact if_pos h

theorem createIndexIfNotExists_noop (i : IndexName) (db : DbState)
    (h : i ∈ db.indexes) : createIndexIfNotExists i db = db := by
  unfold createIndexIfNotExists; exact if_pos h

theorem createTableIfNotExists_mem (t : TableName) (db : DbState) :
    t ∈ (createTableIfNotExists t db).tables := by
  unfold createTableIfNotExists
  split
  · assumption
  · simp

theorem createTableIfNotExists_mem_of (t t' : TableName) (db : DbState)
    (h : t' ∈ db.tables) : t' ∈ (createTableIfNotExists t db).tables := by
  unfold createTableIfNotExists
  split
  · exact h
  · simp [h]

theorem createIndexIfNotExists_mem (i : IndexName) (db : DbState) :
    i ∈ (createIndexIfNotExists i db).indexes := by
  unfold createIndexIfNotExists
  split
  · assumption
  · simp

theorem createIndexIfNotExists_mem_of (i i' : IndexName) (db : DbState)
    (h : i' ∈ db.indexes) : i' ∈ (createIndexIfNotExists i db).indexes := by
  unfold createIndexIfNotExists
  split
  · exact h
  · simp [h]

theorem createTableIfNotExists_nodup (t : TableName) (db : DbState)
    (h : db.tables.Nodup) : (createTableIfNotExists t db).tables.Nodup := by
  unfold createTableIfNotExists
  split
  · exact h
  · simpa [List.nodup_append, h] using (by assumption : ¬ t ∈ db.tables)

theorem createIndexIfNotExists_nodup (i : IndexName) (db : DbState)
    (h : db.indexes.Nodup) : (createIndexIfNotExists i db).indexes.Nodup := by
  unfold createIndexIfNotExists
  split
  · exact h
  · simpa [List.nodup_append, h] using (by assumption : ¬ i ∈ db.indexes)

/-- After running `init_db` the schema is present. -/
theorem init_db_hasSchema (db : DbState) : hasSchema (init_db db) := by
  unfold init_db hasSchema
  refine ⟨?_, ?_, ?_, ?_⟩
  · rw [createIndexIfNotExists_tables, createIndexIfNotExists_tables]
    exact createTableIfNotExists_mem_of _ _ _ (createTableIfNotExists_mem _ _)
  · rw [createIndexIfNotExists_tables, createIndexIfNotExists_tables]
    exact createTableIfNotExists_mem _ _
  · exact createIndexIfNotExists_mem_of _ _ _ (createIndexIfNotExists_mem _ _)
  · exact createIndexIfNotExists_mem _ _

/-- `init_db` on a store that already has the schema is the identity. -/
theorem init_db_noop (db : DbState) (h : hasSchema db) : init_db db = db := by
  obtain ⟨hs, he, hit, hity⟩ := h
  unfold init_db
  rw [createTableIfNotExists_noop _ _ hs, createTableIfNotExists_noop _ _ he,
    createIndexIfNotExists_noop _ _ hit, createIndexIfNotExists_noop _ _ hity]

/-- C8: opening the schema is idempotent — on a storage file already holding
the schema it changes nothing; it never touches stored session or event
rows; re-running it is the identity on its own result; and it introduces no
duplicate table or index entries. -/
theorem C8_init_db_idempotent (db : DbState) :
    (init_db db).sessionRows = db.sessionRows ∧
    (init_db db).eventRows = db.eventRows ∧
    (hasSchema db → init_db db = db) ∧
    init_db (init_db db) = init_db db ∧
    (db.tables.Nodup → (init_db db).tables.Nodup) ∧
    (db.indexes.Nodup → (init_db db).indexes.Nodup) := by
  refine ⟨?_, ?_, init_db_noop db, init_db_noop _ (init_db_hasSchema db), ?_, ?_⟩
  · unfold init_db
    rw [createIndexIfNotExists_sessionRows, createIndexIfNotExists_sessionRows,
      createTableIfNotExists_sessionRows, createTableIfNotExists_sessionRows]
  · unfold init_db
    rw [createIndexIfNotExists_eventRows, createIndexIfNotExists_eventRows,
      createTableIfNotExists_eventRows, createTableIfNotExists_eventRows]
  · intro h
    unfold init_db
    rw [createIndexIfNotExists_tables, createIndexIfNotExists_tables]
    exact createTableIfNotExists_nodup _ _ (createTableIfNotExists_nodup _ _ h)
  · intro h
    apply createIndexIfNotExists_nodup
    apply createIndexIfNotExists_nodup
    rw [createTableIfNotExists_indexes, createTableIfNotExists_indexes]
    exact h

/-- Witness for C8 at a concrete store that already holds the schema. -/
theorem C8_init_db_idempotent_witness :
    hasSchema ⟨[TableName.sessions, TableName.events],
      [IndexName.idx_events_session_time, IndexName.idx_events_session_type],
      [], []⟩ ∧
    init_db ⟨[TableName.sessions, TableName.events],
      [IndexName.idx_events_session_time, IndexName.idx_events_session_type],
      [], []⟩ =
      ⟨[TableName.sessions, TableName.events],
        [IndexName.idx_events_session_time, IndexName.idx_events_session_type],
        [], []⟩ := by
  have hs : hasSchema ⟨[TableName.sessions, TableName.events],
      [IndexName.idx_events_session_time, IndexName.idx_events_session_type],
      [], []⟩ := by
    refine ⟨by simp, by simp, by simp, by simp⟩
  exact ⟨hs, (C8_init_db_idempotent _).2.2.1 hs⟩

/-- Witness for C10 at a concrete input. -/
theorem C10_truncate_text_spec_witness :
    (truncate_text ['a', 'b', 'c'] 2).length = 3 ∧
    (truncate_text ['a', 'b', 'c'] 2).truncated = true ∧
    (truncate_text ['a', 'b', 'c'] 2).text = ['a', 'b'] := by
  have h := C10_truncate_text_spec ['a', 'b', 'c'] 2
  refine ⟨h.1.trans (by decide), h.2.1.mpr (by decide), (h.2.2.2 (by decide)).trans (by decide)⟩

end Framer
